import Mathlib

/-!
Verification development for the isolate sandbox launcher.

The definitions below are a shallow embedding of the C sources:
  - src/src/isolation.c : capability-file parsing (load_capabilities and
    its helpers parse_memory_size, parse_network_rule, parse_file_rule);
  - src/src/freebsd.c   : the FreeBSD isolation orchestrator
    (freebsd_create_isolation, cleanup_jail, switch_to_user and the
    per-step helpers).

C strings are Lean String values, machine integers are Int or Nat, the
C double used by strtod is modelled as the exact decimal value of the
literal (the inputs of interest are decimal literals, which that model
represents exactly), and every fallible C function returns Option or
an explicit integer status, mirroring the source. Host side effects (shell
commands, mounts, jail syscalls) are captured as an explicit action
trace, with an oracle record deciding the success of each primitive.
-/

namespace Isolate

/-! ## C character and string helpers -/

/-- The characters accepted by isspace in the C locale. -/
def isSpaceChar (c : Char) : Bool :=
  c = ' ' || c = '\t' || c = '\n' || c = '\r' || c = '\x0b' || c = '\x0c'

/-- trim_whitespace from isolation.c: strip leading and trailing isspace
characters. -/
def trimWS (s : String) : String :=
  ⟨((s.data.dropWhile isSpaceChar).reverse.dropWhile isSpaceChar).reverse⟩

/-- strncpy into a buffer of size n+1: at most n characters are kept. -/
def strTake (s : String) (n : Nat) : String :=
  ⟨s.data.take n⟩

/-- Longest prefix of decimal digits together with the remaining
characters. -/
def takeDigits : List Char → List Char × List Char
  | [] => ([], [])
  | c :: cs =>
    if c.isDigit then
      let (d, r) := takeDigits cs
      (c :: d, r)
    else ([], c :: cs)

/-- Numeric value of a digit string. -/
def natOfDigits (l : List Char) : Nat :=
  l.foldl (fun a c => a * 10 + (c.toNat - 48)) 0

/-- strtol in base 10: skip whitespace, optional sign, digit prefix.
Returns the value and the rest of the string from the end pointer; when
no digits are consumed the end pointer is the original string and the
value is 0. (Overflow clamping is not modelled; the inputs of interest
are far below LONG_MAX.) -/
def strtolPair (s : List Char) : Int × List Char :=
  let s1 := s.dropWhile isSpaceChar
  match s1 with
  | '-' :: rest =>
    let (d, r) := takeDigits rest
    if d = [] then (0, s) else (-(natOfDigits d : Int), r)
  | '+' :: rest =>
    let (d, r) := takeDigits rest
    if d = [] then (0, s) else ((natOfDigits d : Int), r)
  | _ =>
    let (d, r) := takeDigits s1
    if d = [] then (0, s) else ((natOfDigits d : Int), r)

/-- atoi: the integer value of the longest strtol prefix. -/
def atoi (s : String) : Int :=
  (strtolPair s.data).1

/-- True when the whole string is consumed by strtol, as tested by the
C idiom strtol(s, &endptr, 10) with *endptr == 0. -/
def strtolFull (s : String) : Option Int :=
  let (v, r) := strtolPair s.data
  if r = [] && s.data ≠ [] then some v else none

/-- The exact value of a decimal literal: num / 10 ^ pow10. The C
double of the source holds the rounding of this value; the decimal
literals of interest are represented exactly, so rounding is not
modelled. -/
structure CDouble where
  num : Int
  pow10 : Nat
deriving DecidableEq, Repr

/-- Scale a non-negative decimal value by a natural multiplier and
truncate, as the C cast (size_t)(value * multiplier) does. -/
def CDouble.scaleFloor (v : CDouble) (m : Nat) : Nat :=
  ((v.num * (m : Int)).toNat) / 10 ^ v.pow10

/-- Multiply a decimal value by 10 ^ e. -/
def CDouble.scalePow10 (v : CDouble) (e : Int) : CDouble :=
  if 0 ≤ e then { num := v.num * (10 : Int) ^ e.toNat, pow10 := v.pow10 }
  else { num := v.num, pow10 := v.pow10 + (-e).toNat }

/-- strtod: skip whitespace, optional sign, digits with an optional
fractional part and an optional decimal exponent. Returns the exact
decimal value and the rest from the end pointer; with no conversion
the end pointer is the original string and the value is 0. (Hex
floats and inf/nan are not modelled.) -/
def strtodPair (s : List Char) : CDouble × List Char :=
  let s0 := s.dropWhile isSpaceChar
  let (neg, s1) :=
    match s0 with
    | '-' :: rest => (true, rest)
    | '+' :: rest => (false, rest)
    | _ => (false, s0)
  let (intDigits, s2) := takeDigits s1
  let (fracDigits, s3) :=
    match s2 with
    | '.' :: rest => takeDigits rest
    | _ => ([], s2)
  if intDigits = [] && fracDigits = [] then ({ num := 0, pow10 := 0 }, s)
  else
    let base : CDouble :=
      { num := (natOfDigits intDigits * 10 ^ fracDigits.length + natOfDigits fracDigits : Nat)
        pow10 := fracDigits.length }
    let (scaled, s4) :=
      match s3 with
      | 'e' :: rest =>
        match strtolPair rest with
        | (e, r) => if r = rest then (base, s3) else (base.scalePow10 e, r)
      | 'E' :: rest =>
        match strtolPair rest with
        | (e, r) => if r = rest then (base, s3) else (base.scalePow10 e, r)
      | _ => (base, s3)
    (if neg then { scaled with num := -scaled.num } else scaled, s4)

/-- strchr(s, c) viewed as a split: the part before the first
occurrence and the part after it. -/
def strchrSplit (c : Char) : List Char → Option (List Char × List Char)
  | [] => none
  | x :: xs =>
    if x = c then some ([], xs)
    else (strchrSplit c xs).map (fun p => (x :: p.1, p.2))

/-- Split a character list at every colon. -/
def splitOnColon : List Char → List (List Char)
  | [] => [[]]
  | c :: cs =>
    if c = ':' then [] :: splitOnColon cs
    else match splitOnColon cs with
         | t :: ts => (c :: t) :: ts
         | [] => [[c]]

/-- The token sequence produced by repeated strtok(..., ":") calls:
maximal non-empty runs between colons. -/
def tokenize (s : String) : List String :=
  ((splitOnColon s.data).map (fun l => (⟨l⟩ : String))).filter (fun t => t ≠ "")

/-- basename as computed by strrchr(target, slash) in the source. -/
def basenameOf (s : String) : String :=
  if s.data.contains '/' then ⟨(s.data.reverse.takeWhile (fun c => c ≠ '/')).reverse⟩
  else s

/-! ## Policy data model (struct capabilities from common.h) -/

/-- struct network_rule. direction: 0 both, 1 outbound, 2 inbound;
port: minus one for any port. -/
structure NetworkRule where
  protocol : String
  address : String
  port : Int
  direction : Nat
deriving DecidableEq, Repr

/-- struct file_rule. permissions is the R_OK(4)/W_OK(2)/X_OK(1)
bitfield. -/
structure FileRule where
  path : String
  permissions : Nat
deriving DecidableEq, Repr

/-- struct env_var. -/
structure EnvVar where
  name : String
  value : String
deriving DecidableEq, Repr

/-- struct resource_limits. -/
structure ResourceLimits where
  memory_bytes : Nat
  max_processes : Int
  max_files : Int
  max_cpu_percent : Int
deriving DecidableEq, Repr

/-- struct capabilities. The fixed C arrays with their counts are
modelled as lists whose length is the count. -/
structure Capabilities where
  username : String
  create_user : Bool
  network : List NetworkRule
  network_default_deny : Bool
  files : List FileRule
  fs_default_deny : Bool
  env_vars : List EnvVar
  env_clear : Bool
  limits : ResourceLimits
deriving DecidableEq, Repr

/-- init_default_capabilities from isolation.c. -/
def init_default_capabilities : Capabilities :=
  { username := "auto"
    create_user := true
    network := []
    network_default_deny := false
    files := []
    fs_default_deny := false
    env_vars := []
    env_clear := false
    limits := { memory_bytes := 0, max_processes := 0, max_files := 0, max_cpu_percent := 0 } }

/-! ## Parsing (isolation.c) -/

/-- parse_memory_size: strtod value, reject negatives, then a
single-character suffix switch on the first unconsumed character.
Returns the byte count on success, none on the minus-one error
return. -/
def parse_memory_size (size_str : String) : Option Nat :=
  let (value, rest) := strtodPair size_str.data
  if value.num < 0 then none
  else
    match rest with
    | [] => some (value.scaleFloor 1)
    | c :: _ =>
      match c.toUpper with
      | 'K' => some (value.scaleFloor 1024)
      | 'M' => some (value.scaleFloor (1024 * 1024))
      | 'G' => some (value.scaleFloor (1024 * 1024 * 1024))
      | 'B' => some (value.scaleFloor 1)
      | _ => none

/-- Direction decoding at the end of parse_network_rule. -/
def dirOf (o : Option String) : Nat :=
  match o with
  | some d =>
    if d = "outbound" || d = "out" then 1
    else if d = "inbound" || d = "in" then 2
    else 0
  | none => 0

/-- parse_network_rule from isolation.c. The four initial strtok calls
bind the first four tokens; in the address-with-port branch one more
strtok call overwrites the direction variable with the fifth token.
Returns none on the minus-one error return. -/
def parse_network_rule (rule_str : String) : Option NetworkRule :=
  if rule_str = "none" then
    some { protocol := "none", address := "", port := 0, direction := 0 }
  else
    let toks := tokenize rule_str
    match toks.get? 0 with
    | none => none
    | some proto =>
      let protocol := strTake proto 7
      if proto = "unix" then
        some { protocol
               address := strTake ((toks.get? 1).getD "") 255
               port := -1
               direction := dirOf (toks.get? 3) }
      else
        match toks.get? 1 with
        | none =>
          some { protocol, address := "", port := 0, direction := dirOf (toks.get? 3) }
        | some addr_or_port =>
          match strtolFull addr_or_port with
          | some port =>
            if 0 < port && port < 65536 then
              some { protocol, address := "0.0.0.0", port, direction := dirOf (toks.get? 3) }
            else
              parseAddressForm protocol addr_or_port toks
          | none => parseAddressForm protocol addr_or_port toks
where
  /-- The branch of parse_network_rule in which the second token is an
  address rather than a port. -/
  parseAddressForm (protocol addr_or_port : String) (toks : List String) : Option NetworkRule :=
    let address := strTake addr_or_port 255
    match toks.get? 2 with
    | some port_or_dir =>
      some { protocol, address, port := atoi port_or_dir, direction := dirOf (toks.get? 4) }
    | none =>
      some { protocol, address, port := -1, direction := dirOf (toks.get? 3) }

/-- parse_file_rule from isolation.c. -/
def parse_file_rule (rule_str : String) : Option FileRule :=
  let toks := tokenize rule_str
  match toks.get? 0 with
  | none => none
  | some path =>
    let permissions :=
      match toks.get? 1 with
      | some perms =>
        (if perms.data.contains 'r' || perms.data.contains 'R' then 4 else 0) +
        (if perms.data.contains 'w' || perms.data.contains 'W' then 2 else 0) +
        (if perms.data.contains 'x' || perms.data.contains 'X' then 1 else 0)
      | none => 4
    some { path := strTake path 1023, permissions }

/-- The kinds of warning lines load_capabilities prints to stderr. -/
inductive WarnKind where
  | invalidSyntax (line : String)
  | invalidMemory (value : String)
  | invalidNetworkRule (value : String)
  | invalidFileRule (value : String)
  | unknownKey (key : String)
deriving DecidableEq, Repr

/-- A warning together with the 1-based line number it was issued for. -/
def Warning : Type := Nat × WarnKind

instance : DecidableEq Warning := instDecidableEqProd

/-- True when the first character is the comment mark, as the C test
of the dereferenced trimmed pointer. -/
def startsWithHash (s : String) : Bool :=
  match s.data with
  | '#' :: _ => true
  | _ => false

/-- parse_key_value from isolation.c: split at the first colon and trim
both sides; none when the line has no colon. -/
def parse_key_value (line : String) : Option (String × String) :=
  (strchrSplit ':' line.data).map (fun p => (trimWS ⟨p.1⟩, trimWS ⟨p.2⟩))

/-- The user branch of load_capabilities. -/
def apply_user (caps : Capabilities) (value : String) : Capabilities :=
  { caps with username := strTake value 63, create_user := value == "auto" }

/-- The memory branch of load_capabilities. -/
def apply_memory (caps : Capabilities) (value : String) : Capabilities × Option WarnKind :=
  match parse_memory_size value with
  | some b => ({ caps with limits := { caps.limits with memory_bytes := b } }, none)
  | none => (caps, some (WarnKind.invalidMemory value))

/-- The network branch of load_capabilities: appended only below the
MAX_NETWORK_RULES cap of 16; above the cap the line is ignored without
any warning. -/
def apply_network (caps : Capabilities) (value : String) : Capabilities × Option WarnKind :=
  if caps.network.length < 16 then
    match parse_network_rule value with
    | some r => ({ caps with network := caps.network ++ [r] }, none)
    | none => (caps, some (WarnKind.invalidNetworkRule value))
  else (caps, none)

/-- The filesystem branch of load_capabilities, capped at
MAX_FILE_RULES (32). -/
def apply_file (caps : Capabilities) (value : String) : Capabilities × Option WarnKind :=
  if caps.files.length < 32 then
    match parse_file_rule value with
    | some r => ({ caps with files := caps.files ++ [r] }, none)
    | none => (caps, some (WarnKind.invalidFileRule value))
  else (caps, none)

/-- The name/value pair of an env line: split at the first equals
sign; none when there is no equals sign. -/
def envPairOf (value : String) : Option EnvVar :=
  (strchrSplit '=' value.data).map (fun p =>
    { name := strTake ⟨p.1⟩ 255, value := strTake ⟨p.2⟩ 1023 })

/-- The env branch of load_capabilities, capped at MAX_ENV_VARS (32):
the value splits at the first equals sign; a value with no equals sign
is silently ignored. -/
def apply_env (caps : Capabilities) (value : String) : Capabilities :=
  if caps.env_vars.length < 32 then
    match envPairOf value with
    | some r => { caps with env_vars := caps.env_vars ++ [r] }
    | none => caps
  else caps

/-- The key dispatch of load_capabilities. The source is an if-else
chain of strcmp tests against pairwise distinct literals, which is the
same function as this literal match (the final arm is the unknown-key
warning). -/
def apply_kv (caps : Capabilities) (key value : String) : Capabilities × Option WarnKind :=
  match key with
  | "user" => (apply_user caps value, none)
  | "memory" => apply_memory caps value
  | "processes" =>
    ({ caps with limits := { caps.limits with max_processes := atoi value } }, none)
  | "files" =>
    ({ caps with limits := { caps.limits with max_files := atoi value } }, none)
  | "cpu" =>
    ({ caps with limits := { caps.limits with max_cpu_percent := atoi value } }, none)
  | "network" => apply_network caps value
  | "filesystem" | "file" => apply_file caps value
  | "env" => (apply_env caps value, none)
  | "network_default" =>
    ({ caps with network_default_deny := value == "deny" }, none)
  | "filesystem_default" =>
    ({ caps with fs_default_deny := value == "deny" }, none)
  | "env_clear" =>
    ({ caps with env_clear := value == "true" || value == "1" }, none)
  | _ => (caps, some (WarnKind.unknownKey key))

/-- One iteration of the fgets loop of load_capabilities: trim, skip
blank and comment lines, split at the colon, dispatch on the key. -/
def apply_line (caps : Capabilities) (line : String) : Capabilities × Option WarnKind :=
  let trimmed := trimWS line
  if trimmed == "" || startsWithHash trimmed then (caps, none)
  else
    match parse_key_value trimmed with
    | none => (caps, some (WarnKind.invalidSyntax line))
    | some kv => apply_kv caps kv.1 kv.2

/-- The fgets loop of load_capabilities, carrying the line counter for
warnings. -/
def loadFrom (caps : Capabilities) (n : Nat) : List String → Capabilities × List Warning
  | [] => (caps, [])
  | l :: ls =>
    let r := apply_line caps l
    let rest := loadFrom r.1 (n + 1) ls
    (rest.1, match r.2 with
             | some k => (n, k) :: rest.2
             | none => rest.2)

/-- load_capabilities from isolation.c on a document that opened
successfully, given as its list of lines: start from the defaults and
run the line loop. Returns the parsed policy and the warnings
printed. -/
def load_capabilities (lines : List String) : Capabilities × List Warning :=
  loadFrom init_default_capabilities 1 lines

/-! ## Analysis of load_capabilities

Spec-side views of a document: the significant key/value of a line,
the values appearing under a given key, and the rules a document
contributes in order. -/

/-- The key/value pair of a line, or none for blank, comment and
colon-free lines. -/
def sigKV (line : String) : Option (String × String) :=
  let t := trimWS line
  if t == "" || startsWithHash t then none else parse_key_value t

/-- Values of the lines whose key satisfies pk, in document order. -/
def keyValsP (pk : String → Bool) (lines : List String) : List String :=
  lines.filterMap (fun l => (sigKV l).bind (fun kv => if pk kv.1 then some kv.2 else none))

/-- Values of the lines with the given key, in document order. -/
def keyVals (key : String) (lines : List String) : List String :=
  keyValsP (fun k => k == key) lines

/-- The network rules a document declares that parse, in order. -/
def netRules (lines : List String) : List NetworkRule :=
  (keyVals "network" lines).filterMap parse_network_rule

/-- The file rules a document declares that parse, in order; the key
may be filesystem or file. -/
def fileRules (lines : List String) : List FileRule :=
  (keyValsP (fun k => k == "filesystem" || k == "file") lines).filterMap parse_file_rule

/-- The env pairs a document declares that contain an equals sign, in
order. -/
def envRules (lines : List String) : List EnvVar :=
  (keyVals "env" lines).filterMap envPairOf

/-- The successfully parsed memory sizes of a document, in order. -/
def memVals (lines : List String) : List Nat :=
  (keyVals "memory" lines).filterMap parse_memory_size

/-- The capabilities component of the line loop as a plain fold. -/
def loadCapsList (c : Capabilities) (lines : List String) : Capabilities :=
  lines.foldl (fun c l => (apply_line c l).1) c

theorem loadFrom_fst (ls : List String) : ∀ (c : Capabilities) (n : Nat),
    (loadFrom c n ls).1 = loadCapsList c ls := by
  induction ls with
  | nil => intro c n; rfl
  | cons l ls ih =>
    intro c n
    have h1 : (loadFrom c n (l :: ls)).1 = (loadFrom (apply_line c l).1 (n + 1) ls).1 := rfl
    rw [h1, ih (apply_line c l).1 (n + 1)]
    rfl

theorem apply_line_fst (c : Capabilities) (l : String) :
    (apply_line c l).1 = (match sigKV l with
                          | none => c
                          | some kv => (apply_kv c kv.1 kv.2).1) := by
  simp only [apply_line, sigKV]
  cases hb : (trimWS l == "" || startsWithHash (trimWS l)) with
  | false =>
    simp only [hb, Bool.false_eq_true, if_false]
    cases h : parse_key_value (trimWS l) <;> simp [h]
  | true => simp [hb]

/-- Generic commutation of a field projection with the line loop:
when every non-matching key preserves the projection and a matching
key updates it through upd, the loop computes a fold of upd over the
matching values. -/
theorem loadCaps_proj {β : Type} (proj : Capabilities → β) (pk : String → Bool)
    (upd : β → String → β)
    (hpres : ∀ c k v, pk k = false → proj (apply_kv c k v).1 = proj c)
    (hupd : ∀ c k v, pk k = true → proj (apply_kv c k v).1 = upd (proj c) v) :
    ∀ (ls : List String) (c : Capabilities),
      proj (loadCapsList c ls) = (keyValsP pk ls).foldl upd (proj c) := by
  intro ls
  induction ls with
  | nil => intro c; rfl
  | cons l ls ih =>
    intro c
    have hstep : loadCapsList c (l :: ls) = loadCapsList (apply_line c l).1 ls := rfl
    rw [hstep, ih]
    cases hsig : sigKV l with
    | none =>
      have hl : (apply_line c l).1 = c := by rw [apply_line_fst, hsig]
      simp [keyValsP, List.filterMap_cons, hsig, hl]
    | some kv =>
      have hl : (apply_line c l).1 = (apply_kv c kv.1 kv.2).1 := by
        rw [apply_line_fst, hsig]
      cases hk : pk kv.1 with
      | false =>
        simp [keyValsP, List.filterMap_cons, hsig, hk, hl, hpres _ _ _ hk]
      | true =>
        simp [keyValsP, List.filterMap_cons, hsig, hk, hl, hupd _ _ _ hk]

/-- Keep the parse of the current value when it succeeds, the old
value otherwise. -/
def lastGoodUpd {A B : Type} (g : A → Option B) (old : B) (v : A) : B :=
  match g v with
  | some b => b
  | none => old

/-- Append the parse of the current value while below the cap. -/
def cappedAppend {A B : Type} (parse : A → Option B) (cap : Nat) (acc : List B) (v : A) :
    List B :=
  if acc.length < cap then
    match parse v with
    | some r => acc ++ [r]
    | none => acc
  else acc

/-- Elimination of getLast? on a cons: the head only matters for the
empty tail. -/
theorem getLast?_cons_elim {α β : Type} (F : α → β) (D : β) (v : α) (t : List α) :
    ((v :: t).getLast?).elim D F = (t.getLast?).elim (F v) F := by
  cases t with
  | nil => rfl
  | cons y ys =>
    rw [List.getLast?_cons_cons]
    cases hxs : (y :: ys).getLast? with
    | none => simp [List.getLast?_eq_none_iff] at hxs
    | some u => rfl

/-- A fold that ignores the accumulator keeps the last element. -/
theorem foldl_last {α β : Type} (F : α → β) :
    ∀ (l : List α) (D : β), l.foldl (fun _ v => F v) D = (l.getLast?).elim D F := by
  intro l
  induction l with
  | nil => intro D; rfl
  | cons x xs ih =>
    intro D
    rw [List.foldl_cons, ih, getLast?_cons_elim]

/-- A fold through a partial update keeps the last successful value. -/
theorem foldl_partial_last {α β : Type} (g : α → Option β) :
    ∀ (l : List α) (D : β),
      l.foldl (lastGoodUpd g) D = ((l.filterMap g).getLast?).elim D id := by
  intro l
  induction l with
  | nil => intro D; rfl
  | cons x xs ih =>
    intro D
    rw [List.foldl_cons]
    cases hg : g x with
    | none => simp only [lastGoodUpd, hg, List.filterMap_cons, ih]
    | some b =>
      simp only [lastGoodUpd, hg, List.filterMap_cons, ih, getLast?_cons_elim, id]

/-- A fold through a length-capped append takes a prefix of the
declared rules. -/
theorem foldl_capped {α β : Type} (parse : α → Option β) (cap : Nat) :
    ∀ (l : List α) (D : List β), D.length ≤ cap →
      l.foldl (cappedAppend parse cap) D = (D ++ l.filterMap parse).take cap := by
  intro l
  induction l with
  | nil =>
    intro D hD
    simp [List.take_of_length_le hD]
  | cons x xs ih =>
    intro D hD
    rw [List.foldl_cons]
    by_cases hlt : D.length < cap
    · simp only [cappedAppend, if_pos hlt]
      cases hp : parse x with
      | none => simp only [hp, List.filterMap_cons, ih D hD]
      | some r =>
        have h2 : (D ++ [r]).length ≤ cap := by
          simp only [List.length_append, List.length_cons, List.length_nil]
          omega
        simp only [hp, List.filterMap_cons, ih (D ++ [r]) h2, List.append_assoc,
          List.singleton_append]
    · have hee : D.length = cap := by omega
      simp only [cappedAppend, if_neg hlt]
      rw [ih D hD]
      rw [List.take_left' hee, List.take_left' hee]

/-! Per-key behaviour of the dispatch: how each projection of the
policy record changes across one dispatched line. -/

theorem apply_kv_user_pres (c : Capabilities) (k v : String) (h : (k == "user") = false) :
    ((apply_kv c k v).1.username, (apply_kv c k v).1.create_user) = (c.username, c.create_user) := by
  unfold apply_kv
  split <;> first
    | rfl
    | (unfold apply_memory; split <;> rfl)
    | (unfold apply_network; split <;> (try split) <;> rfl)
    | (unfold apply_file; split <;> (try split) <;> rfl)
    | (unfold apply_env; split <;> (try split) <;> rfl)
    | (simp at h)

theorem apply_kv_user_upd (c : Capabilities) (k v : String) (h : (k == "user") = true) :
    ((apply_kv c k v).1.username, (apply_kv c k v).1.create_user) = (strTake v 63, v == "auto") := by
  have hk : k = "user" := by simpa using h
  subst hk
  rfl

theorem apply_kv_memory_pres (c : Capabilities) (k v : String) (h : (k == "memory") = false) :
    (apply_kv c k v).1.limits.memory_bytes = c.limits.memory_bytes := by
  unfold apply_kv
  split <;> first
    | rfl
    | (unfold apply_network; split <;> (try split) <;> rfl)
    | (unfold apply_file; split <;> (try split) <;> rfl)
    | (unfold apply_env; split <;> (try split) <;> rfl)
    | (simp at h)

theorem apply_kv_memory_upd (c : Capabilities) (k v : String) (h : (k == "memory") = true) :
    (apply_kv c k v).1.limits.memory_bytes
      = lastGoodUpd parse_memory_size c.limits.memory_bytes v := by
  have hk : k = "memory" := by simpa using h
  subst hk
  show (apply_memory c v).1.limits.memory_bytes = _
  unfold apply_memory lastGoodUpd
  split <;> simp_all

theorem apply_kv_procs_pres (c : Capabilities) (k v : String) (h : (k == "processes") = false) :
    (apply_kv c k v).1.limits.max_processes = c.limits.max_processes := by
  unfold apply_kv
  split <;> first
    | rfl
    | (unfold apply_memory; split <;> rfl)
    | (unfold apply_network; split <;> (try split) <;> rfl)
    | (unfold apply_file; split <;> (try split) <;> rfl)
    | (unfold apply_env; split <;> (try split) <;> rfl)
    | (simp at h)

theorem apply_kv_procs_upd (c : Capabilities) (k v : String) (h : (k == "processes") = true) :
    (apply_kv c k v).1.limits.max_processes = atoi v := by
  have hk : k = "processes" := by simpa using h
  subst hk
  rfl

theorem apply_kv_files_pres (c : Capabilities) (k v : String) (h : (k == "files") = false) :
    (apply_kv c k v).1.limits.max_files = c.limits.max_files := by
  unfold apply_kv
  split <;> first
    | rfl
    | (unfold apply_memory; split <;> rfl)
    | (unfold apply_network; split <;> (try split) <;> rfl)
    | (unfold apply_file; split <;> (try split) <;> rfl)
    | (unfold apply_env; split <;> (try split) <;> rfl)
    | (simp at h)

theorem apply_kv_files_upd (c : Capabilities) (k v : String) (h : (k == "files") = true) :
    (apply_kv c k v).1.limits.max_files = atoi v := by
  have hk : k = "files" := by simpa using h
  subst hk
  rfl

theorem apply_kv_cpu_pres (c : Capabilities) (k v : String) (h : (k == "cpu") = false) :
    (apply_kv c k v).1.limits.max_cpu_percent = c.limits.max_cpu_percent := by
  unfold apply_kv
  split <;> first
    | rfl
    | (unfold apply_memory; split <;> rfl)
    | (unfold apply_network; split <;> (try split) <;> rfl)
    | (unfold apply_file; split <;> (try split) <;> rfl)
    | (unfold apply_env; split <;> (try split) <;> rfl)
    | (simp at h)

theorem apply_kv_cpu_upd (c : Capabilities) (k v : String) (h : (k == "cpu") = true) :
    (apply_kv c k v).1.limits.max_cpu_percent = atoi v := by
  have hk : k = "cpu" := by simpa using h
  subst hk
  rfl

theorem apply_kv_network_pres (c : Capabilities) (k v : String) (h : (k == "network") = false) :
    (apply_kv c k v).1.network = c.network := by
  unfold apply_kv
  split <;> first
    | rfl
    | (unfold apply_memory; split <;> rfl)
    | (unfold apply_file; split <;> (try split) <;> rfl)
    | (unfold apply_env; split <;> (try split) <;> rfl)
    | (simp at h)

theorem apply_kv_network_upd (c : Capabilities) (k v : String) (h : (k == "network") = true) :
    (apply_kv c k v).1.network = cappedAppend parse_network_rule 16 c.network v := by
  have hk : k = "network" := by simpa using h
  subst hk
  show (apply_network c v).1.network = _
  unfold apply_network cappedAppend
  split <;> (try split) <;> simp_all

theorem apply_kv_fsfiles_pres (c : Capabilities) (k v : String)
    (h : (k == "filesystem" || k == "file") = false) :
    (apply_kv c k v).1.files = c.files := by
  unfold apply_kv
  split <;> first
    | rfl
    | (unfold apply_memory; split <;> rfl)
    | (unfold apply_network; split <;> (try split) <;> rfl)
    | (unfold apply_env; split <;> (try split) <;> rfl)
    | (simp at h)

theorem apply_kv_fsfiles_upd (c : Capabilities) (k v : String)
    (h : (k == "filesystem" || k == "file") = true) :
    (apply_kv c k v).1.files = cappedAppend parse_file_rule 32 c.files v := by
  have hk : k = "filesystem" ∨ k = "file" := by
    rcases Bool.or_eq_true_iff.mp h with h1 | h1 <;> [left; right] <;> simpa using h1
  have hgoal : ∀ cc vv,
      (apply_file cc vv).1.files = cappedAppend parse_file_rule 32 cc.files vv := by
    intro cc vv
    unfold apply_file cappedAppend
    split <;> (try split) <;> simp_all
  rcases hk with hk | hk <;> subst hk <;> exact hgoal c v

theorem apply_kv_env_pres (c : Capabilities) (k v : String) (h : (k == "env") = false) :
    (apply_kv c k v).1.env_vars = c.env_vars := by
  unfold apply_kv
  split <;> first
    | rfl
    | (unfold apply_memory; split <;> rfl)
    | (unfold apply_network; split <;> (try split) <;> rfl)
    | (unfold apply_file; split <;> (try split) <;> rfl)
    | (simp at h)

theorem apply_kv_env_upd (c : Capabilities) (k v : String) (h : (k == "env") = true) :
    (apply_kv c k v).1.env_vars = cappedAppend envPairOf 32 c.env_vars v := by
  have hk : k = "env" := by simpa using h
  subst hk
  show (apply_env c v).env_vars = _
  unfold apply_env cappedAppend
  split <;> (try split) <;> simp_all

theorem apply_kv_netdef_pres (c : Capabilities) (k v : String)
    (h : (k == "network_default") = false) :
    (apply_kv c k v).1.network_default_deny = c.network_default_deny := by
  unfold apply_kv
  split <;> first
    | rfl
    | (unfold apply_memory; split <;> rfl)
    | (unfold apply_network; split <;> (try split) <;> rfl)
    | (unfold apply_file; split <;> (try split) <;> rfl)
    | (unfold apply_env; split <;> (try split) <;> rfl)
    | (simp at h)

theorem apply_kv_netdef_upd (c : Capabilities) (k v : String)
    (h : (k == "network_default") = true) :
    (apply_kv c k v).1.network_default_deny = (v == "deny") := by
  have hk : k = "network_default" := by simpa using h
  subst hk
  rfl

theorem apply_kv_fsdef_pres (c : Capabilities) (k v : String)
    (h : (k == "filesystem_default") = false) :
    (apply_kv c k v).1.fs_default_deny = c.fs_default_deny := by
  unfold apply_kv
  split <;> first
    | rfl
    | (unfold apply_memory; split <;> rfl)
    | (unfold apply_network; split <;> (try split) <;> rfl)
    | (unfold apply_file; split <;> (try split) <;> rfl)
    | (unfold apply_env; split <;> (try split) <;> rfl)
    | (simp at h)

theorem apply_kv_fsdef_upd (c : Capabilities) (k v : String)
    (h : (k == "filesystem_default") = true) :
    (apply_kv c k v).1.fs_default_deny = (v == "deny") := by
  have hk : k = "filesystem_default" := by simpa using h
  subst hk
  rfl

theorem apply_kv_envclear_pres (c : Capabilities) (k v : String)
    (h : (k == "env_clear") = false) :
    (apply_kv c k v).1.env_clear = c.env_clear := by
  unfold apply_kv
  split <;> first
    | rfl
    | (unfold apply_memory; split <;> rfl)
    | (unfold apply_network; split <;> (try split) <;> rfl)
    | (unfold apply_file; split <;> (try split) <;> rfl)
    | (unfold apply_env; split <;> (try split) <;> rfl)
    | (simp at h)

theorem apply_kv_envclear_upd (c : Capabilities) (k v : String)
    (h : (k == "env_clear") = true) :
    (apply_kv c k v).1.env_clear = (v == "true" || v == "1") := by
  have hk : k = "env_clear" := by simpa using h
  subst hk
  rfl

/-! Field-level characterisations of the whole line loop. -/

theorem loadCaps_user (ls : List String) (c : Capabilities) :
    ((loadCapsList c ls).username, (loadCapsList c ls).create_user)
      = ((keyVals "user" ls).getLast?).elim (c.username, c.create_user)
          (fun v => (strTake v 63, v == "auto")) := by
  have h := loadCaps_proj (fun c => (c.username, c.create_user)) (fun k => k == "user")
    (fun _ v => (strTake v 63, v == "auto"))
    (fun c k v hk => apply_kv_user_pres c k v hk)
    (fun c k v hk => apply_kv_user_upd c k v hk) ls c
  rw [h, foldl_last]
  rfl

theorem loadCaps_memory (ls : List String) (c : Capabilities) :
    (loadCapsList c ls).limits.memory_bytes
      = ((memVals ls).getLast?).elim c.limits.memory_bytes id := by
  have h := loadCaps_proj (fun c => c.limits.memory_bytes) (fun k => k == "memory")
    (lastGoodUpd parse_memory_size)
    (fun c k v hk => apply_kv_memory_pres c k v hk)
    (fun c k v hk => apply_kv_memory_upd c k v hk) ls c
  rw [h]
  exact foldl_partial_last parse_memory_size _ _

theorem loadCaps_procs (ls : List String) (c : Capabilities) :
    (loadCapsList c ls).limits.max_processes
      = ((keyVals "processes" ls).getLast?).elim c.limits.max_processes atoi := by
  have h := loadCaps_proj (fun c => c.limits.max_processes) (fun k => k == "processes")
    (fun _ v => atoi v)
    (fun c k v hk => apply_kv_procs_pres c k v hk)
    (fun c k v hk => apply_kv_procs_upd c k v hk) ls c
  rw [h, foldl_last]
  rfl

theorem loadCaps_files_limit (ls : List String) (c : Capabilities) :
    (loadCapsList c ls).limits.max_files
      = ((keyVals "files" ls).getLast?).elim c.limits.max_files atoi := by
  have h := loadCaps_proj (fun c => c.limits.max_files) (fun k => k == "files")
    (fun _ v => atoi v)
    (fun c k v hk => apply_kv_files_pres c k v hk)
    (fun c k v hk => apply_kv_files_upd c k v hk) ls c
  rw [h, foldl_last]
  rfl

theorem loadCaps_cpu (ls : List String) (c : Capabilities) :
    (loadCapsList c ls).limits.max_cpu_percent
      = ((keyVals "cpu" ls).getLast?).elim c.limits.max_cpu_percent atoi := by
  have h := loadCaps_proj (fun c => c.limits.max_cpu_percent) (fun k => k == "cpu")
    (fun _ v => atoi v)
    (fun c k v hk => apply_kv_cpu_pres c k v hk)
    (fun c k v hk => apply_kv_cpu_upd c k v hk) ls c
  rw [h, foldl_last]
  rfl

theorem loadCaps_network (ls : List String) (c : Capabilities)
    (hc : c.network.length ≤ 16) :
    (loadCapsList c ls).network = (c.network ++ netRules ls).take 16 := by
  have h := loadCaps_proj (fun c => c.network) (fun k => k == "network")
    (cappedAppend parse_network_rule 16)
    (fun c k v hk => apply_kv_network_pres c k v hk)
    (fun c k v hk => apply_kv_network_upd c k v hk) ls c
  rw [h]
  exact foldl_capped parse_network_rule 16 _ _ hc

theorem loadCaps_filerules (ls : List String) (c : Capabilities)
    (hc : c.files.length ≤ 32) :
    (loadCapsList c ls).files = (c.files ++ fileRules ls).take 32 := by
  have h := loadCaps_proj (fun c => c.files) (fun k => k == "filesystem" || k == "file")
    (cappedAppend parse_file_rule 32)
    (fun c k v hk => apply_kv_fsfiles_pres c k v hk)
    (fun c k v hk => apply_kv_fsfiles_upd c k v hk) ls c
  rw [h]
  exact foldl_capped parse_file_rule 32 _ _ hc

theorem loadCaps_envrules (ls : List String) (c : Capabilities)
    (hc : c.env_vars.length ≤ 32) :
    (loadCapsList c ls).env_vars = (c.env_vars ++ envRules ls).take 32 := by
  have h := loadCaps_proj (fun c => c.env_vars) (fun k => k == "env")
    (cappedAppend envPairOf 32)
    (fun c k v hk => apply_kv_env_pres c k v hk)
    (fun c k v hk => apply_kv_env_upd c k v hk) ls c
  rw [h]
  exact foldl_capped envPairOf 32 _ _ hc

theorem loadCaps_netdef (ls : List String) (c : Capabilities) :
    (loadCapsList c ls).network_default_deny
      = ((keyVals "network_default" ls).getLast?).elim c.network_default_deny
          (fun v => v == "deny") := by
  have h := loadCaps_proj (fun c => c.network_default_deny) (fun k => k == "network_default")
    (fun _ v => v == "deny")
    (fun c k v hk => apply_kv_netdef_pres c k v hk)
    (fun c k v hk => apply_kv_netdef_upd c k v hk) ls c
  rw [h, foldl_last]
  rfl

theorem loadCaps_fsdef (ls : List String) (c : Capabilities) :
    (loadCapsList c ls).fs_default_deny
      = ((keyVals "filesystem_default" ls).getLast?).elim c.fs_default_deny
          (fun v => v == "deny") := by
  have h := loadCaps_proj (fun c => c.fs_default_deny) (fun k => k == "filesystem_default")
    (fun _ v => v == "deny")
    (fun c k v hk => apply_kv_fsdef_pres c k v hk)
    (fun c k v hk => apply_kv_fsdef_upd c k v hk) ls c
  rw [h, foldl_last]
  rfl

theorem loadCaps_envclear (ls : List String) (c : Capabilities) :
    (loadCapsList c ls).env_clear
      = ((keyVals "env_clear" ls).getLast?).elim c.env_clear
          (fun v => v == "true" || v == "1") := by
  have h := loadCaps_proj (fun c => c.env_clear) (fun k => k == "env_clear")
    (fun _ v => v == "true" || v == "1")
    (fun c k v hk => apply_kv_envclear_pres c k v hk)
    (fun c k v hk => apply_kv_envclear_upd c k v hk) ls c
  rw [h, foldl_last]
  rfl

/-! ## Claims about the parser -/

/-- The three rule lists of a parsed policy are capped prefixes of the
declared rules in document order. -/
theorem load_lists (lines : List String) :
    (load_capabilities lines).1.network = (netRules lines).take 16
    ∧ (load_capabilities lines).1.files = (fileRules lines).take 32
    ∧ (load_capabilities lines).1.env_vars = (envRules lines).take 32 := by
  have hP : (load_capabilities lines).1 = loadCapsList init_default_capabilities lines :=
    loadFrom_fst lines init_default_capabilities 1
  refine ⟨?_, ?_, ?_⟩
  · rw [hP]
    have := loadCaps_network lines init_default_capabilities (by decide)
    simpa using this
  · rw [hP]
    have := loadCaps_filerules lines init_default_capabilities (by decide)
    simpa using this
  · rw [hP]
    have := loadCaps_envrules lines init_default_capabilities (by decide)
    simpa using this

/-- C10: in load_capabilities the scalar keys (user, memory, processes,
files, cpu, network_default, filesystem_default, env_clear) are
last-occurrence-wins (for memory, the last occurrence that
parse_memory_size accepts), the list keys accumulate their parseable
entries in document order up to the caps, and create_user holds exactly
when the last user value is the literal auto or no user line appears. -/
theorem C10_scalar_last_wins_lists_accumulate (lines : List String) :
    ((load_capabilities lines).1.create_user = true ↔
      ((keyVals "user" lines).getLast? = some "auto" ∨ (keyVals "user" lines).getLast? = none))
    ∧ (load_capabilities lines).1.username
        = ((keyVals "user" lines).getLast?).elim "auto" (fun v => strTake v 63)
    ∧ (load_capabilities lines).1.create_user
        = ((keyVals "user" lines).getLast?).elim true (fun v => v == "auto")
    ∧ (load_capabilities lines).1.limits.memory_bytes
        = ((memVals lines).getLast?).elim 0 id
    ∧ (load_capabilities lines).1.limits.max_processes
        = ((keyVals "processes" lines).getLast?).elim 0 atoi
    ∧ (load_capabilities lines).1.limits.max_files
        = ((keyVals "files" lines).getLast?).elim 0 atoi
    ∧ (load_capabilities lines).1.limits.max_cpu_percent
        = ((keyVals "cpu" lines).getLast?).elim 0 atoi
    ∧ (load_capabilities lines).1.network_default_deny
        = ((keyVals "network_default" lines).getLast?).elim false (fun v => v == "deny")
    ∧ (load_capabilities lines).1.fs_default_deny
        = ((keyVals "filesystem_default" lines).getLast?).elim false (fun v => v == "deny")
    ∧ (load_capabilities lines).1.env_clear
        = ((keyVals "env_clear" lines).getLast?).elim false (fun v => v == "true" || v == "1")
    ∧ (load_capabilities lines).1.network = (netRules lines).take 16
    ∧ (load_capabilities lines).1.files = (fileRules lines).take 32
    ∧ (load_capabilities lines).1.env_vars = (envRules lines).take 32 := by
  have hP : (load_capabilities lines).1 = loadCapsList init_default_capabilities lines :=
    loadFrom_fst lines init_default_capabilities 1
  have huser := loadCaps_user lines init_default_capabilities
  have hu1 : (loadCapsList init_default_capabilities lines).username
      = ((keyVals "user" lines).getLast?).elim "auto" (fun v => strTake v 63) := by
    cases hL : (keyVals "user" lines).getLast? <;> rw [hL] at huser <;>
      simpa using congrArg Prod.fst huser
  have hu2 : (loadCapsList init_default_capabilities lines).create_user
      = ((keyVals "user" lines).getLast?).elim true (fun v => v == "auto") := by
    cases hL : (keyVals "user" lines).getLast? <;> rw [hL] at huser <;>
      simpa using congrArg Prod.snd huser
  refine ⟨?_, ?_, ?_, ?_, ?_, ?_, ?_, ?_, ?_, ?_, ?_, ?_, ?_⟩
  · rw [hP, hu2]
    cases hL : (keyVals "user" lines).getLast? with
    | none => simp
    | some v =>
      simp only [Option.elim, Option.some.injEq, reduceCtorEq, or_false, beq_iff_eq]
  · rw [hP]; exact hu1
  · rw [hP]; exact hu2
  · rw [hP]; exact loadCaps_memory lines init_default_capabilities
  · rw [hP]; exact loadCaps_procs lines init_default_capabilities
  · rw [hP]; exact loadCaps_files_limit lines init_default_capabilities
  · rw [hP]; exact loadCaps_cpu lines init_default_capabilities
  · rw [hP]; exact loadCaps_netdef lines init_default_capabilities
  · rw [hP]; exact loadCaps_fsdef lines init_default_capabilities
  · rw [hP]; exact loadCaps_envclear lines init_default_capabilities
  · exact (load_lists lines).1
  · exact (load_lists lines).2.1
  · exact (load_lists lines).2.2

/-- C9 (amended): for every document the parsed policy holds at most
16 network rules, 32 file rules and 32 env rules — exactly the first
16/32/32 parseable declared entries in document order; entries beyond
the caps are discarded silently, with no warning. -/
theorem C9_caps_hold_excess_silently_discarded (lines : List String) :
    (load_capabilities lines).1.network.length ≤ 16
    ∧ (load_capabilities lines).1.files.length ≤ 32
    ∧ (load_capabilities lines).1.env_vars.length ≤ 32
    ∧ (load_capabilities lines).1.network = (netRules lines).take 16
    ∧ (load_capabilities lines).1.files = (fileRules lines).take 32
    ∧ (load_capabilities lines).1.env_vars = (envRules lines).take 32 := by
  obtain ⟨h1, h2, h3⟩ := load_lists lines
  refine ⟨?_, ?_, ?_, h1, h2, h3⟩
  · rw [h1]; exact List.length_take_le 16 _
  · rw [h2]; exact List.length_take_le 32 _
  · rw [h3]; exact List.length_take_le 32 _

/-- C9 (counterexample): a document with 17 valid network lines keeps
only 16 rules but emits no warning at all, contradicting the claim
that every entry beyond the caps is warned about. -/
theorem C9_seventeenth_rule_dropped_without_warning :
    (load_capabilities (List.replicate 17 "network: tcp:80")).1.network.length = 16
    ∧ (load_capabilities (List.replicate 17 "network: tcp:80")).2 = [] :=
  ⟨rfl, rfl⟩

/-- C7 (code bug evaluation): parse_memory_size accepts the malformed
value banana silently — strtod consumes nothing and the leading letter
b is taken as the B suffix — so the line memory: banana sets the limit
to 0 with no warning instead of being warned about and skipped, and it
clobbers a previous valid memory line. -/
theorem C7_banana_accepted_silently :
    parse_memory_size "banana" = some 0
    ∧ (load_capabilities ["memory: 64M", "memory: banana"]).1.limits.memory_bytes = 0
    ∧ (load_capabilities ["memory: 64M", "memory: banana"]).2 = []
    ∧ (load_capabilities ["memory: banana", "user: auto"]).1.create_user = true
    ∧ (load_capabilities ["memory: banana", "user: auto"]).2 = [] :=
  ⟨rfl, rfl, rfl, rfl, rfl⟩

/-- C8 (code bug evaluation): a trailing direction field is lost for
tcp and udp rules. In the port form the third token is never examined;
in the address-with-port form the direction variable is overwritten by
a further strtok call that returns the fifth token. Both examples
follow the usage shown in the source comment of parse_network_rule. -/
theorem C8_direction_field_dropped :
    parse_network_rule "udp:53:outbound"
      = some { protocol := "udp", address := "0.0.0.0", port := 53, direction := 0 }
    ∧ parse_network_rule "tcp:192.168.1.1:80:in"
      = some { protocol := "tcp", address := "192.168.1.1", port := 80, direction := 0 } :=
  ⟨rfl, rfl⟩

/-! ## The FreeBSD orchestrator (freebsd.c)

The orchestrator shells out to host utilities and issues jail and
credential syscalls. The embedding captures those side effects as an
explicit trace of actions, and decides the success of each primitive
through an oracle record describing the host. The module-level
mutable state of freebsd.c (ephemeral_username, created_jail_id,
jail_root_path) is the Globals record — the de-facto rollback journal
of the program. -/

/-- A passwd entry as returned by getpwnam. -/
structure PwEnt where
  name : String
  uid : Nat
  gid : Nat
  dir : String
  shell : String
deriving DecidableEq, Repr

/-- The parse of the first line of the in-jail /etc/passwd containing
the username as a substring, as the manual fallback of switch_to_user
computes it with strtok: first field, third field, fourth field. -/
structure FallbackEnt where
  name : String
  uid_str : String
  gid_str : String
deriving DecidableEq, Repr

/-- Oracle describing the host: whether each primitive call of one
invocation succeeds, and what the host databases return. The source
never consults hostDirs — the field only states facts about the host
needed to phrase claims about file rules. -/
structure HostEnv where
  pid : Nat
  userExists : Bool
  useraddOk : Bool
  verifyOk : Bool
  mkdirRootOk : Bool
  copyBinaryOk : Bool
  mountLibOk : Bool
  mountUsrLibOk : Bool
  mountLibexecOk : Bool
  mountDevOk : Bool
  jailOk : Bool
  jid : Nat
  rctlMemoryOk : Bool
  rctlProcOk : Bool
  rctlFilesOk : Bool
  attachOk : Bool
  jailPw : Option PwEnt
  passwdFallback : Option FallbackEnt
  setgidOk : Bool
  initgroupsOk : Bool
  setuidOk : Bool
  hostDirs : List String
deriving DecidableEq, Repr

/-- The module globals of freebsd.c: ephemeral_username,
created_jail_id and jail_root_path, zero-initialised at process
start. -/
structure Globals where
  ephemeral_username : String
  created_jail_id : Int
  jail_root_path : String
deriving DecidableEq, Repr

/-- The zero-initialised globals at process start. -/
def Globals.start : Globals :=
  { ephemeral_username := "", created_jail_id := -1, jail_root_path := "" }

/-- Process credentials. -/
structure Cred where
  uid : Nat
  gid : Nat
deriving DecidableEq, Repr

/-- The process environment as setenv maintains it: first binding of a
name wins on lookup, setenv with overwrite replaces in place. -/
def EnvMap : Type := List (String × String)

instance : DecidableEq EnvMap := List.hasDecEq

instance : Repr EnvMap := inferInstanceAs (Repr (List (String × String)))

/-- getenv. -/
def envGet (m : EnvMap) (k : String) : Option String :=
  (m.find? (fun p => p.1 == k)).map (fun p => p.2)

/-- setenv with overwrite = 1. -/
def envSet : EnvMap → String → String → EnvMap
  | [], k, v => [(k, v)]
  | p :: ps, k, v => if p.1 == k then (k, v) :: ps else p :: envSet ps k v

/-- The host side effects of one invocation, in program order. -/
inductive Act where
  | runUseradd (name : String)
  | runUserdel (name : String)
  | rmDirTree (path : String)
  | mkRootDir (path : String)
  | mountFs (source target : String)
  | umountFs (target : String)
  | jailCreate (name : String) (jid : Int)
  | jailRemove (jid : Int)
  | jailAttach (jid : Int)
  | rctlAdd (jail metric : String) (limit : Nat)
  | setGidAct (g : Nat)
  | initGroupsAct (name : String) (g : Nat)
  | setUidAct (u : Nat)
deriving DecidableEq, Repr

/-- create_ephemeral_user from freebsd.c: reuse an existing user, else
run pw useradd and verify with getpwnam. Returns the C status and the
trace; the useradd action is recorded once the shell command
succeeded, even when the later verification fails. -/
def create_ephemeral_user (env : HostEnv) (username : String) : Int × List Act :=
  if env.userExists then (0, [])
  else if ¬ env.useraddOk then (-1, [])
  else if ¬ env.verifyOk then (-1, [Act.runUseradd username])
  else (0, [Act.runUseradd username])

/-- cleanup_jail from freebsd.c: remove the jail if one was created,
unmount the six fixed directories under the root path and remove it if
one was recorded, and delete the ephemeral user if one was recorded;
each guard resets its global afterwards. -/
def cleanup_jail (g : Globals) : Globals × List Act :=
  let s1 : Globals × List Act :=
    if 0 ≤ g.created_jail_id then
      ({ g with created_jail_id := -1 }, [Act.jailRemove g.created_jail_id])
    else (g, [])
  let g1 := s1.1
  let s2 : Globals × List Act :=
    if g1.jail_root_path ≠ "" then
      ({ g1 with jail_root_path := "" },
        [Act.umountFs (g1.jail_root_path ++ "/dev"),
         Act.umountFs (g1.jail_root_path ++ "/bin"),
         Act.umountFs (g1.jail_root_path ++ "/lib"),
         Act.umountFs (g1.jail_root_path ++ "/libexec"),
         Act.umountFs (g1.jail_root_path ++ "/usr/lib"),
         Act.umountFs (g1.jail_root_path ++ "/usr/local/lib"),
         Act.rmDirTree g1.jail_root_path])
    else (g1, [])
  let g2 := s2.1
  let s3 : Globals × List Act :=
    if g2.ephemeral_username ≠ "" then
      ({ g2 with ephemeral_username := "" }, [Act.runUserdel g2.ephemeral_username])
    else (g2, [])
  (s3.1, s1.2 ++ s2.2 ++ s3.2)

/-- create_jail_filesystem from freebsd.c: the root path is written
into the global buffer, any previous directory is removed, then the
directory is created. -/
def create_jail_filesystem (env : HostEnv) (jail_name : String) : Int × String × List Act :=
  let jail_path := "/tmp/isolate-" ++ jail_name
  if env.mkdirRootOk then (0, jail_path, [Act.rmDirTree jail_path, Act.mkRootDir jail_path])
  else (-1, jail_path, [Act.rmDirTree jail_path])

/-- setup_filesystem_isolation from freebsd.c. The rules argument is
received but never read by the source. The skeleton directories are
created under the root (their lifetime is the root directory, so they
are not traced), the target binary is copied in, and the fixed system
directories are nullfs-mounted read-only plus a devfs mount; every
mount failure is only a warning. -/
def setup_filesystem_isolation (env : HostEnv) (rules : List FileRule)
    (jail_path target_binary : String) : Int × List Act :=
  if ¬ env.copyBinaryOk then (-1, [])
  else
    let tLib := if env.mountLibOk then [Act.mountFs "/lib" (jail_path ++ "/lib")] else []
    let tUsrLib :=
      if env.mountUsrLibOk then [Act.mountFs "/usr/lib" (jail_path ++ "/usr/lib")] else []
    let tLibexec :=
      if env.mountLibexecOk then [Act.mountFs "/libexec" (jail_path ++ "/libexec")] else []
    let tDev := if env.mountDevOk then [Act.mountFs "devfs" (jail_path ++ "/dev")] else []
    (0, tLib ++ tUsrLib ++ tLibexec ++ tDev)

/-- create_jail from freebsd.c: the eight fixed jail parameters (name,
path, persist, no raw sockets, socket_af allowed, ip4 and ip6
inherited, no sysvipc); returns the jail id or minus one. -/
def create_jail (env : HostEnv) (jail_name jail_path : String) : Int × List Act :=
  if env.jailOk then ((env.jid : Int), [Act.jailCreate jail_name (env.jid : Int)])
  else (-1, [])

/-- setup_resource_limits from freebsd.c: one rctl rule per non-zero
limit of memory, processes and files; an rctl failure is only a
warning, and the function always returns 0. -/
def setup_resource_limits (env : HostEnv) (jail_name : String) (limits : ResourceLimits) :
    Int × List Act :=
  let t1 :=
    if 0 < limits.memory_bytes ∧ env.rctlMemoryOk then
      [Act.rctlAdd jail_name "memoryuse" limits.memory_bytes]
    else []
  let t2 :=
    if 0 < limits.max_processes ∧ env.rctlProcOk then
      [Act.rctlAdd jail_name "maxproc" limits.max_processes.toNat]
    else []
  let t3 :=
    if 0 < limits.max_files ∧ env.rctlFilesOk then
      [Act.rctlAdd jail_name "openfiles" limits.max_files.toNat]
    else []
  (0, t1 ++ t2 ++ t3)

/-- setup_network_isolation from freebsd.c: the rules are received and
ignored; the function always returns 0. -/
def setup_network_isolation (rules : List NetworkRule) : Int × List Act :=
  (0, [])

/-- attach_to_jail from freebsd.c. -/
def attach_to_jail (env : HostEnv) (jid : Int) : Int × List Act :=
  if env.attachOk then (0, [Act.jailAttach jid]) else (-1, [])

/-- switch_to_user from freebsd.c: resolve the user with getpwnam and
set gid, groups, uid, then USER, HOME and SHELL; when getpwnam fails,
fall back to a manual parse of /etc/passwd and set gid then uid. A
failure after the gid change returns leaving the gid switched. -/
def switch_to_user (env : HostEnv) (username : String) (cred : Cred) (e : EnvMap) :
    Int × Cred × EnvMap × List Act :=
  match env.jailPw with
  | some pw =>
    if ¬ env.setgidOk then (-1, cred, e, [])
    else
      let cred1 : Cred := { cred with gid := pw.gid }
      if ¬ env.initgroupsOk then (-1, cred1, e, [Act.setGidAct pw.gid])
      else if ¬ env.setuidOk then
        (-1, cred1, e, [Act.setGidAct pw.gid, Act.initGroupsAct pw.name pw.gid])
      else
        let cred2 : Cred := { cred1 with uid := pw.uid }
        (0, cred2,
         envSet (envSet (envSet e "USER" pw.name) "HOME" pw.dir) "SHELL" pw.shell,
         [Act.setGidAct pw.gid, Act.initGroupsAct pw.name pw.gid, Act.setUidAct pw.uid])
  | none =>
    match env.passwdFallback with
    | some fb =>
      if fb.name = username then
        let uid := (atoi fb.uid_str).toNat
        let gid := (atoi fb.gid_str).toNat
        if ¬ env.setgidOk then (-1, cred, e, [])
        else
          let cred1 : Cred := { cred with gid := gid }
          if ¬ env.setuidOk then (-1, cred1, e, [Act.setGidAct gid])
          else
            let cred2 : Cred := { cred1 with uid := uid }
            (0, cred2, e, [Act.setGidAct gid, Act.setUidAct uid])
      else (-1, cred, e, [])
    | none => (-1, cred, e, [])

/-- The result of one freebsd_create_isolation invocation: the C
return status, the final module globals, the process credentials and
environment, and the host action trace. -/
structure RunResult where
  ret : Int
  g : Globals
  cred : Cred
  env : EnvMap
  trace : List Act
deriving DecidableEq, Repr

/-- Steps of freebsd_create_isolation after user determination: root
directory, filesystem population, jail creation, limits, network,
attach, credential switch; every failure calls cleanup_jail and
returns. -/
def isolation_steps (env : HostEnv) (caps : Capabilities) (cred : Cred) (e : EnvMap)
    (g1 : Globals) (t0 : List Act) (jail_name username target_binary : String) : RunResult :=
  let r1 := create_jail_filesystem env jail_name
  let g2 : Globals := { g1 with jail_root_path := r1.2.1 }
  if r1.1 ≠ 0 then
    let cl := cleanup_jail g2
    { ret := r1.1, g := cl.1, cred, env := e, trace := t0 ++ r1.2.2 ++ cl.2 }
  else
    let r2 := setup_filesystem_isolation env caps.files r1.2.1 target_binary
    if r2.1 ≠ 0 then
      let cl := cleanup_jail g2
      { ret := r2.1, g := cl.1, cred, env := e, trace := t0 ++ r1.2.2 ++ r2.2 ++ cl.2 }
    else
      let rj := create_jail env jail_name r1.2.1
      if rj.1 < 0 then
        let cl := cleanup_jail g2
        { ret := -1, g := cl.1, cred, env := e, trace := t0 ++ r1.2.2 ++ r2.2 ++ rj.2 ++ cl.2 }
      else
        let g3 : Globals := { g2 with created_jail_id := rj.1 }
        let r4 := setup_resource_limits env jail_name caps.limits
        if r4.1 ≠ 0 then
          let cl := cleanup_jail g3
          { ret := r4.1, g := cl.1, cred, env := e,
            trace := t0 ++ r1.2.2 ++ r2.2 ++ rj.2 ++ r4.2 ++ cl.2 }
        else
          let r5 := setup_network_isolation caps.network
          if r5.1 ≠ 0 then
            let cl := cleanup_jail g3
            { ret := r5.1, g := cl.1, cred, env := e,
              trace := t0 ++ r1.2.2 ++ r2.2 ++ rj.2 ++ r4.2 ++ r5.2 ++ cl.2 }
          else
            let r6 := attach_to_jail env rj.1
            if r6.1 ≠ 0 then
              let cl := cleanup_jail g3
              { ret := r6.1, g := cl.1, cred, env := e,
                trace := t0 ++ r1.2.2 ++ r2.2 ++ rj.2 ++ r4.2 ++ r5.2 ++ r6.2 ++ cl.2 }
            else
              let r7 := switch_to_user env username cred e
              if r7.1 ≠ 0 then
                let cl := cleanup_jail g3
                { ret := r7.1, g := cl.1, cred := r7.2.1, env := r7.2.2.1,
                  trace := t0 ++ r1.2.2 ++ r2.2 ++ rj.2 ++ r4.2 ++ r5.2 ++ r6.2
                             ++ r7.2.2.2 ++ cl.2 }
              else
                { ret := 0, g := g3, cred := r7.2.1, env := r7.2.2.1,
                  trace := t0 ++ r1.2.2 ++ r2.2 ++ rj.2 ++ r4.2 ++ r5.2 ++ r6.2
                             ++ r7.2.2.2 }

/-- freebsd_create_isolation from freebsd.c: read the target binary
from the environment, derive the jail name from the pid, create or
reuse the user — recording the ephemeral name in the global before the
attempt, and returning without any cleanup when the attempt fails —
then run the remaining steps. The snprintf calls into the 64-byte name
buffers are modelled by strTake at 63. -/
def freebsd_create_isolation (env : HostEnv) (caps : Capabilities) (cred : Cred)
    (e : EnvMap) : RunResult :=
  match envGet e "ISOLATE_TARGET_BINARY" with
  | none => { ret := -1, g := Globals.start, cred, env := e, trace := [] }
  | some target_binary =>
    let jail_name := strTake ("isolate-" ++ toString env.pid) 63
    if caps.create_user && (caps.username == "auto") then
      let username := strTake ("app-" ++ toString env.pid) 63
      let g1 : Globals := { Globals.start with ephemeral_username := strTake username 63 }
      let r := create_ephemeral_user env username
      if r.1 ≠ 0 then { ret := r.1, g := g1, cred, env := e, trace := r.2 }
      else isolation_steps env caps cred e g1 r.2 jail_name username target_binary
    else
      isolation_steps env caps cred e Globals.start [] jail_name
        (strTake caps.username 63) target_binary

/-- The resource-acquiring actions of a trace. -/
def isAcquire : Act → Bool
  | Act.runUseradd _ => true
  | Act.mkRootDir _ => true
  | Act.mountFs _ _ => true
  | Act.jailCreate _ _ => true
  | _ => false

/-- The actions of a trace that acquire a resource. -/
def acquiredActs (t : List Act) : List Act :=
  t.filter isAcquire

/-- The release action owed for an acquisition. -/
def releaseOf : Act → Act
  | Act.runUseradd n => Act.runUserdel n
  | Act.mkRootDir p => Act.rmDirTree p
  | Act.mountFs _ target => Act.umountFs target
  | Act.jailCreate _ j => Act.jailRemove j
  | a => a

/-- Whether every acquisition of a trace has its release in the
trace. -/
def releasedAll (t : List Act) : Bool :=
  (acquiredActs t).all (fun a => t.contains (releaseOf a))

/-- The jail name derived from the pid. -/
def jailNameOf (env : HostEnv) : String :=
  strTake ("isolate-" ++ toString env.pid) 63

/-- The ephemeral user name derived from the pid. -/
def appNameOf (env : HostEnv) : String :=
  strTake ("app-" ++ toString env.pid) 63

/-- The root directory path of an invocation. -/
def rootPathOf (env : HostEnv) : String :=
  "/tmp/isolate-" ++ jailNameOf env

/-- The sources of the filesystem mounts appearing in a trace. -/
def mountSourceOf : Act → Option String
  | Act.mountFs source _ => some source
  | _ => none

/-- A host on which every primitive of one invocation succeeds. -/
def hostAllOk : HostEnv :=
  { pid := 42
    userExists := false
    useraddOk := true
    verifyOk := true
    mkdirRootOk := true
    copyBinaryOk := true
    mountLibOk := true
    mountUsrLibOk := true
    mountLibexecOk := true
    mountDevOk := true
    jailOk := true
    jid := 7
    rctlMemoryOk := true
    rctlProcOk := true
    rctlFilesOk := true
    attachOk := true
    jailPw := some { name := "app-42", uid := 1001, gid := 1001, dir := "/tmp"
                     shell := "/usr/sbin/nologin" }
    passwdFallback := none
    setgidOk := true
    initgroupsOk := true
    setuidOk := true
    hostDirs := [] }

/-- A caller environment carrying the target binary and one inherited
variable. -/
def procEnv0 : EnvMap :=
  [("ISOLATE_TARGET_BINARY", "/root/hello"), ("PATH", "/usr/bin")]

/-! ## Rollback coverage lemmas -/

def umountActsOf (root : String) : List Act :=
  [Act.umountFs (root ++ "/dev"), Act.umountFs (root ++ "/bin"),
   Act.umountFs (root ++ "/lib"), Act.umountFs (root ++ "/libexec"),
   Act.umountFs (root ++ "/usr/lib"), Act.umountFs (root ++ "/usr/local/lib"),
   Act.rmDirTree root]

theorem releasedAll_iff (t : List Act) :
    releasedAll t = true ↔ ∀ a ∈ acquiredActs t, releaseOf a ∈ t := by
  simp [releasedAll, List.all_eq_true, List.elem_iff, List.contains]

theorem cleanup_jail_acts (g : Globals) (h : g.jail_root_path ≠ "") :
    (cleanup_jail g).2
      = (if 0 ≤ g.created_jail_id then [Act.jailRemove g.created_jail_id] else [])
        ++ umountActsOf g.jail_root_path
        ++ (if g.ephemeral_username ≠ "" then [Act.runUserdel g.ephemeral_username] else []) := by
  by_cases h1 : 0 ≤ g.created_jail_id <;> by_cases h3 : g.ephemeral_username = "" <;>
    simp [cleanup_jail, umountActsOf, h1, h3, h]

theorem cleanup_userdel_mem (g : Globals) (h : g.ephemeral_username ≠ "") :
    Act.runUserdel g.ephemeral_username ∈ (cleanup_jail g).2 := by
  by_cases h1 : 0 ≤ g.created_jail_id <;> by_cases h2 : g.jail_root_path = "" <;>
    simp [cleanup_jail, h1, h2, h]

theorem cleanup_umounts_mem (g : Globals) (h : g.jail_root_path ≠ "") (a : Act)
    (ha : a ∈ umountActsOf g.jail_root_path) : a ∈ (cleanup_jail g).2 := by
  rw [cleanup_jail_acts g h]
  exact List.mem_append_left _ (List.mem_append_right _ ha)

theorem cleanup_jailRemove_mem (g : Globals) (h : 0 ≤ g.created_jail_id) :
    Act.jailRemove g.created_jail_id ∈ (cleanup_jail g).2 := by
  by_cases h2 : g.jail_root_path = "" <;> by_cases h3 : g.ephemeral_username = "" <;>
    simp [cleanup_jail, h2, h3, h]

theorem acquired_cleanup (g : Globals) : acquiredActs (cleanup_jail g).2 = [] := by
  by_cases h1 : 0 ≤ g.created_jail_id <;> by_cases h2 : g.jail_root_path = "" <;>
    by_cases h3 : g.ephemeral_username = "" <;>
      simp [cleanup_jail, acquiredActs, isAcquire, h1, h2, h3]

theorem cleanup_jail_fst_start (g : Globals)
    (h : g.created_jail_id = -1 ∨ 0 ≤ g.created_jail_id) :
    (cleanup_jail g).1 = Globals.start := by
  obtain ⟨eu, cj, jr⟩ := g
  rcases h with h | h <;>
    by_cases h2 : jr = "" <;> by_cases h3 : eu = "" <;>
      simp_all [cleanup_jail, Globals.start]

/-- Rollback coverage: when the middle segment only acquires the root
directory, skeleton mounts and the jail recorded in the globals, the
trace followed by the cleanup of those globals releases every
acquisition. -/
theorem trace_covered (tr t0 mid : List Act) (g : Globals) (un : String)
    (htr : tr = t0 ++ mid ++ (cleanup_jail g).2)
    (hrootne : g.jail_root_path ≠ "")
    (ht0 : t0 = [] ∨ (t0 = [Act.runUseradd un] ∧ g.ephemeral_username = un ∧ un ≠ ""))
    (hmid : ∀ a ∈ acquiredActs mid,
      releaseOf a ∈ umountActsOf g.jail_root_path
      ∨ (releaseOf a = Act.jailRemove g.created_jail_id ∧ 0 ≤ g.created_jail_id)) :
    releasedAll tr = true := by
  subst htr
  rw [releasedAll_iff]
  intro a ha
  rw [acquiredActs, List.filter_append, List.filter_append, ← acquiredActs,
    ← acquiredActs, ← acquiredActs, acquired_cleanup, List.append_nil] at ha
  rcases List.mem_append.mp ha with h0 | hm
  · rcases ht0 with ht0 | ⟨ht0, hg, hne⟩
    · rw [ht0] at h0
      simp [acquiredActs] at h0
    · rw [ht0] at h0
      simp [acquiredActs, isAcquire] at h0
      subst h0
      have hud : Act.runUserdel un ∈ (cleanup_jail g).2 := by
        have := cleanup_userdel_mem g (by rw [hg]; exact hne)
        rwa [hg] at this
      simp only [releaseOf, List.mem_append]
      exact Or.inr hud
  · rcases hmid a hm with hrel | ⟨hrel, hj⟩
    · simp only [List.mem_append]
      exact Or.inr (cleanup_umounts_mem g hrootne _ hrel)
    · simp only [List.mem_append]
      rw [hrel]
      exact Or.inr (cleanup_jailRemove_mem g hj)

theorem createfs_acq (env : HostEnv) (jn : String) :
    ∀ a ∈ acquiredActs (create_jail_filesystem env jn).2.2,
      a = Act.mkRootDir ("/tmp/isolate-" ++ jn) := by
  unfold create_jail_filesystem
  split_ifs <;> simp [acquiredActs, isAcquire]

theorem create_jail_acq (env : HostEnv) (jn p : String) :
    ∀ a ∈ acquiredActs (create_jail env jn p).2,
      a = Act.jailCreate jn (create_jail env jn p).1 := by
  unfold create_jail
  split_ifs <;> simp [acquiredActs, isAcquire]

theorem acquired_limits (env : HostEnv) (jn : String) (lim : ResourceLimits) :
    acquiredActs (setup_resource_limits env jn lim).2 = [] := by
  unfold setup_resource_limits
  dsimp only
  split_ifs <;> simp [acquiredActs, isAcquire]

theorem acquired_attach (env : HostEnv) (jid : Int) :
    acquiredActs (attach_to_jail env jid).2 = [] := by
  unfold attach_to_jail
  split_ifs <;> simp [acquiredActs, isAcquire]

theorem acquired_switch (env : HostEnv) (u : String) (c0 : Cred) (e : EnvMap) :
    acquiredActs (switch_to_user env u c0 e).2.2.2 = [] := by
  unfold switch_to_user
  cases env.jailPw with
  | some pw => split_ifs <;> simp [acquiredActs, isAcquire]
  | none =>
    cases env.passwdFallback with
    | some fb =>
      by_cases hn : fb.name = u <;> split_ifs <;> simp [hn, acquiredActs, isAcquire]
    | none => simp [acquiredActs, isAcquire]

theorem setupfs_covered (env : HostEnv) (rules : List FileRule) (root tb : String) :
    ∀ a ∈ acquiredActs (setup_filesystem_isolation env rules root tb).2,
      releaseOf a ∈ umountActsOf root := by
  unfold setup_filesystem_isolation
  dsimp only
  by_cases h0 : env.copyBinaryOk <;> by_cases h1 : env.mountLibOk <;>
    by_cases h2 : env.mountUsrLibOk <;> by_cases h3 : env.mountLibexecOk <;>
      by_cases h4 : env.mountDevOk <;>
        simp [h0, h1, h2, h3, h4, acquiredActs, isAcquire, releaseOf, umountActsOf]



theorem jailRootPrefix_ne_empty (s : String) : ("/tmp/isolate-" ++ s) ≠ "" := by
  intro h
  have h2 := congrArg String.length h
  simp [String.length_append] at h2
  exact absurd h2.1 (by decide)

theorem createfs_path (env : HostEnv) (jn : String) :
    (create_jail_filesystem env jn).2.1 = "/tmp/isolate-" ++ jn := by
  unfold create_jail_filesystem
  split_ifs <;> rfl

theorem acquired_append (s t : List Act) :
    acquiredActs (s ++ t) = acquiredActs s ++ acquiredActs t := by
  simp [acquiredActs]

theorem create_jail_fail (env : HostEnv) (jn p : String)
    (h : (create_jail env jn p).1 < 0) : (create_jail env jn p).2 = [] := by
  unfold create_jail at h ⊢
  split_ifs at h ⊢ with hj
  · exact absurd h (by simp)
  · rfl

theorem isolation_steps_failure (env : HostEnv) (caps : Capabilities) (cred : Cred)
    (e : EnvMap) (g1 : Globals) (t0 : List Act) (jn un tb : String)
    (hjid : g1.created_jail_id = -1)
    (ht0 : t0 = [] ∨ (t0 = [Act.runUseradd un] ∧ g1.ephemeral_username = un ∧ un ≠ ""))
    (hret : (isolation_steps env caps cred e g1 t0 jn un tb).ret ≠ 0) :
    (isolation_steps env caps cred e g1 t0 jn un tb).g = Globals.start
    ∧ releasedAll (isolation_steps env caps cred e g1 t0 jn un tb).trace = true := by
  have hroot := createfs_path env jn
  have hrne : (create_jail_filesystem env jn).2.1 ≠ "" := by
    rw [hroot]; exact jailRootPrefix_ne_empty jn
  unfold isolation_steps at hret ⊢
  dsimp only at hret ⊢
  split_ifs at hret ⊢ with c1 c2 c3 c4 c5 c6 c7
  · refine ⟨cleanup_jail_fst_start _ (Or.inl hjid), ?_⟩
    refine trace_covered _ t0 (create_jail_filesystem env jn).2.2 (⟨g1.ephemeral_username, g1.created_jail_id, (create_jail_filesystem env jn).2.1⟩ : Globals) un rfl hrne ht0 ?_
    intro a ha
    have h2 := createfs_acq env jn a ha
    subst h2
    left
    simp [umountActsOf, releaseOf, hroot]
  · refine ⟨cleanup_jail_fst_start _ (Or.inl hjid), ?_⟩
    refine trace_covered _ t0
      ((create_jail_filesystem env jn).2.2
        ++ (setup_filesystem_isolation env caps.files (create_jail_filesystem env jn).2.1 tb).2)
      (⟨g1.ephemeral_username, g1.created_jail_id, (create_jail_filesystem env jn).2.1⟩ : Globals) un (by simp [List.append_assoc]) hrne ht0 ?_
    intro a ha
    rw [acquired_append] at ha
    rcases List.mem_append.mp ha with h | h
    · have h2 := createfs_acq env jn a h
      subst h2
      left
      simp [umountActsOf, releaseOf, hroot]
    · left
      exact setupfs_covered env caps.files _ tb a h
  · refine ⟨cleanup_jail_fst_start _ (Or.inl hjid), ?_⟩
    rw [create_jail_fail env jn _ c3]
    refine trace_covered _ t0
      ((create_jail_filesystem env jn).2.2
        ++ (setup_filesystem_isolation env caps.files (create_jail_filesystem env jn).2.1 tb).2)
      (⟨g1.ephemeral_username, g1.created_jail_id, (create_jail_filesystem env jn).2.1⟩ : Globals) un (by simp [List.append_assoc]) hrne ht0 ?_
    intro a ha
    rw [acquired_append] at ha
    rcases List.mem_append.mp ha with h | h
    · have h2 := createfs_acq env jn a h
      subst h2
      left
      simp [umountActsOf, releaseOf, hroot]
    · left
      exact setupfs_covered env caps.files _ tb a h
  · exact absurd rfl c4
  · exact absurd rfl c5
  · refine ⟨cleanup_jail_fst_start _ (Or.inr (Int.not_lt.mp c3)), ?_⟩
    have h6 := acquired_attach env (create_jail env jn (create_jail_filesystem env jn).2.1).1
    refine trace_covered _ t0
      ((create_jail_filesystem env jn).2.2
        ++ (setup_filesystem_isolation env caps.files (create_jail_filesystem env jn).2.1 tb).2
        ++ (create_jail env jn (create_jail_filesystem env jn).2.1).2
        ++ (setup_resource_limits env jn caps.limits).2
        ++ (setup_network_isolation caps.network).2
        ++ (attach_to_jail env (create_jail env jn (create_jail_filesystem env jn).2.1).1).2)
      (⟨g1.ephemeral_username, (create_jail env jn (create_jail_filesystem env jn).2.1).1, (create_jail_filesystem env jn).2.1⟩ : Globals) un (by simp [List.append_assoc]) hrne ht0 ?_
    intro a ha
    simp only [acquired_append, List.mem_append] at ha
    rcases ha with ((((h | h) | h) | h) | h) | h
    · have h2 := createfs_acq env jn a h
      subst h2
      left
      simp [umountActsOf, releaseOf, hroot]
    · left
      exact setupfs_covered env caps.files _ tb a h
    · have h2 := create_jail_acq env jn _ a h
      subst h2
      right
      exact ⟨rfl, Int.not_lt.mp c3⟩
    · rw [acquired_limits] at h
      cases h
    · simp [setup_network_isolation, acquiredActs] at h
    · rw [acquired_attach] at h
      cases h
  · refine ⟨cleanup_jail_fst_start _ (Or.inr (Int.not_lt.mp c3)), ?_⟩
    refine trace_covered _ t0
      ((create_jail_filesystem env jn).2.2
        ++ (setup_filesystem_isolation env caps.files (create_jail_filesystem env jn).2.1 tb).2
        ++ (create_jail env jn (create_jail_filesystem env jn).2.1).2
        ++ (setup_resource_limits env jn caps.limits).2
        ++ (setup_network_isolation caps.network).2
        ++ (attach_to_jail env (create_jail env jn (create_jail_filesystem env jn).2.1).1).2
        ++ (switch_to_user env un cred e).2.2.2)
      (⟨g1.ephemeral_username, (create_jail env jn (create_jail_filesystem env jn).2.1).1, (create_jail_filesystem env jn).2.1⟩ : Globals) un (by simp [List.append_assoc]) hrne ht0 ?_
    intro a ha
    simp only [acquired_append, List.mem_append] at ha
    rcases ha with (((((h | h) | h) | h) | h) | h) | h
    · have h2 := createfs_acq env jn a h
      subst h2
      left
      simp [umountActsOf, releaseOf, hroot]
    · left
      exact setupfs_covered env caps.files _ tb a h
    · have h2 := create_jail_acq env jn _ a h
      subst h2
      right
      exact ⟨rfl, Int.not_lt.mp c3⟩
    · rw [acquired_limits] at h
      cases h
    · simp [setup_network_isolation, acquiredActs] at h
    · rw [acquired_attach] at h
      cases h
    · rw [acquired_switch] at h
      cases h
  · exact absurd rfl hret



theorem strTake_idem (s : String) (n : Nat) : strTake (strTake s n) n = strTake s n := by
  simp [strTake, List.take_take]

theorem appNameOf_ne_empty (env : HostEnv) : appNameOf env ≠ "" := by
  intro h
  have h2 := congrArg String.data h
  have h3 : ("app-" ++ toString env.pid).data
      = 'a' :: 'p' :: 'p' :: '-' :: (toString env.pid).data := by
    have := String.data_append "app-" (toString env.pid)
    simpa using this
  simp [appNameOf, strTake, h3] at h2

/-- The ephemeral principal step does not fail: either no ephemeral
user is requested, or it already exists, or useradd and its
verification both succeed. -/
def userStepOk (env : HostEnv) (caps : Capabilities) : Prop :=
  (caps.create_user && (caps.username == "auto")) = true →
    env.userExists = true ∨ (env.useraddOk = true ∧ env.verifyOk = true)

/-- C1 (amended): on every invocation where the ephemeral-principal
step does not fail, a failure of any later step runs cleanup_jail
before returning — the journal (the module globals) is reset to its
start state and every acquired resource of the trace has its release
in the trace. A failure of the ephemeral-principal step itself returns
without rollback. -/
theorem C1_rollback_after_user_step (env : HostEnv) (caps : Capabilities) (cred : Cred) (e : EnvMap)
    (hu : userStepOk env caps)
    (hret : (freebsd_create_isolation env caps cred e).ret ≠ 0) :
    (freebsd_create_isolation env caps cred e).g = Globals.start
    ∧ releasedAll (freebsd_create_isolation env caps cred e).trace = true := by
  unfold freebsd_create_isolation at hret ⊢
  revert hret
  cases henv : envGet e "ISOLATE_TARGET_BINARY" with
  | none => intro hret; exact ⟨rfl, rfl⟩
  | some tb =>
    intro hret
    dsimp only at hret ⊢
    by_cases hcu : (caps.create_user && (caps.username == "auto")) = true
    · simp only [hcu, if_true] at hret ⊢
      by_cases hue : env.userExists = true
      · have hce : create_ephemeral_user env (strTake ("app-" ++ toString env.pid) 63)
            = (0, []) := by
          unfold create_ephemeral_user
          simp [hue]
        rw [hce] at hret ⊢
        dsimp only at hret ⊢
        simp only [ne_eq, not_true_eq_false, if_false, ite_false] at hret ⊢
        exact isolation_steps_failure env caps cred e _ _ _ _ tb rfl (Or.inl rfl) hret
      · obtain ⟨hua, huv⟩ := (hu hcu).resolve_left hue
        have hce : create_ephemeral_user env (strTake ("app-" ++ toString env.pid) 63)
            = (0, [Act.runUseradd (strTake ("app-" ++ toString env.pid) 63)]) := by
          unfold create_ephemeral_user
          simp [hue, hua, huv]
        rw [hce] at hret ⊢
        dsimp only at hret ⊢
        simp only [ne_eq, not_true_eq_false, if_false, ite_false] at hret ⊢
        refine isolation_steps_failure env caps cred e _ _ _ _ tb rfl
          (Or.inr ⟨rfl, ?_, ?_⟩) hret
        · exact strTake_idem ("app-" ++ toString env.pid) 63
        · exact appNameOf_ne_empty env
    · simp only [hcu, if_false] at hret ⊢
      exact isolation_steps_failure env caps cred e _ _ _ _ tb rfl (Or.inl rfl) hret



/-! ## Success-path characterisations -/

theorem rootPathOf_ne_empty (env : HostEnv) : rootPathOf env ≠ "" :=
  jailRootPrefix_ne_empty (jailNameOf env)

theorem isolation_steps_success_g (env : HostEnv) (caps : Capabilities) (cred : Cred)
    (e : EnvMap) (g1 : Globals) (t0 : List Act) (jn un tb : String)
    (hret : (isolation_steps env caps cred e g1 t0 jn un tb).ret = 0) :
    (isolation_steps env caps cred e g1 t0 jn un tb).g
      = { g1 with jail_root_path := "/tmp/isolate-" ++ jn,
                  created_jail_id := (env.jid : Int) } := by
  unfold isolation_steps at hret ⊢
  dsimp only at hret ⊢
  split_ifs at hret ⊢ <;> simp_all [create_jail_filesystem, create_jail]
  all_goals (by_cases hj : env.jailOk <;> by_cases hmk : env.mkdirRootOk <;> simp_all)

theorem switch_success_env (env : HostEnv) (u : String) (c0 : Cred) (e : EnvMap) (pw : PwEnt)
    (hpw : env.jailPw = some pw) (h : (switch_to_user env u c0 e).1 = 0) :
    (switch_to_user env u c0 e).2.2.1
        = envSet (envSet (envSet e "USER" pw.name) "HOME" pw.dir) "SHELL" pw.shell
    ∧ (switch_to_user env u c0 e).2.1 = { uid := pw.uid, gid := pw.gid } := by
  unfold switch_to_user at h ⊢
  rw [hpw] at h ⊢
  by_cases h1 : env.setgidOk <;> by_cases h2 : env.initgroupsOk <;>
    by_cases h3 : env.setuidOk <;> simp_all

theorem isolation_steps_success_env (env : HostEnv) (caps : Capabilities) (cred : Cred)
    (e : EnvMap) (g1 : Globals) (t0 : List Act) (jn un tb : String) (pw : PwEnt)
    (hpw : env.jailPw = some pw)
    (hret : (isolation_steps env caps cred e g1 t0 jn un tb).ret = 0) :
    (isolation_steps env caps cred e g1 t0 jn un tb).env
        = envSet (envSet (envSet e "USER" pw.name) "HOME" pw.dir) "SHELL" pw.shell
    ∧ (isolation_steps env caps cred e g1 t0 jn un tb).cred
        = { uid := pw.uid, gid := pw.gid } := by
  have hs := switch_success_env env un cred e pw hpw
  unfold isolation_steps at hret ⊢
  dsimp only at hret ⊢
  split_ifs at hret ⊢ <;> simp_all

theorem run_success_g (env : HostEnv) (caps : Capabilities) (cred : Cred) (e : EnvMap)
    (hret : (freebsd_create_isolation env caps cred e).ret = 0) :
    (freebsd_create_isolation env caps cred e).g
      = { ephemeral_username :=
            (if caps.create_user && (caps.username == "auto") then appNameOf env else "")
          created_jail_id := (env.jid : Int)
          jail_root_path := rootPathOf env } := by
  unfold freebsd_create_isolation at hret ⊢
  revert hret
  cases henv : envGet e "ISOLATE_TARGET_BINARY" with
  | none =>
    intro hret
    dsimp only at hret
    exact absurd hret (by decide)
  | some tb =>
    intro hret
    dsimp only at hret ⊢
    by_cases hcu : (caps.create_user && (caps.username == "auto")) = true
    · rw [if_pos hcu] at hret ⊢
      by_cases hr : (create_ephemeral_user env (strTake ("app-" ++ toString env.pid) 63)).1 ≠ 0
      · rw [if_pos hr] at hret ⊢
        exact absurd hret hr
      · rw [if_neg hr] at hret ⊢
        have := isolation_steps_success_g env caps cred e
          { Globals.start with
              ephemeral_username := strTake (strTake ("app-" ++ toString env.pid) 63) 63 }
          (create_ephemeral_user env (strTake ("app-" ++ toString env.pid) 63)).2
          (strTake ("isolate-" ++ toString env.pid) 63)
          (strTake ("app-" ++ toString env.pid) 63) tb hret
        rw [this]
        simp [Globals.start, strTake_idem, appNameOf, rootPathOf, jailNameOf, hcu]
    · rw [if_neg hcu] at hret ⊢
      have := isolation_steps_success_g env caps cred e Globals.start []
        (strTake ("isolate-" ++ toString env.pid) 63) (strTake caps.username 63) tb hret
      rw [this]
      simp [Globals.start, rootPathOf, jailNameOf, hcu]


/-! ## Claims about the orchestrator -/

/-- C2: cleanup_jail is idempotent — after one rollback a second call
performs no host action and leaves the globals unchanged, for every
state of the globals. -/
theorem C2_rollback_idempotent (g : Globals) :
    cleanup_jail (cleanup_jail g).1 = ((cleanup_jail g).1, []) := by
  by_cases h1 : 0 ≤ g.created_jail_id <;>
    by_cases h2 : g.jail_root_path ≠ "" <;>
      by_cases h3 : g.ephemeral_username ≠ "" <;>
        simp [cleanup_jail, h1, h2, h3]

/-- C1 (counterexample): when pw useradd succeeds but the getpwnam
verification fails, freebsd_create_isolation returns an error without
any rollback — the journal still records the ephemeral user name, the
user created by the shell command is never deleted, and the trace
violates release coverage. -/
theorem C1_user_step_failure_skips_rollback :
    (freebsd_create_isolation { hostAllOk with verifyOk := false }
        init_default_capabilities ⟨0, 0⟩ procEnv0).ret ≠ 0
    ∧ (freebsd_create_isolation { hostAllOk with verifyOk := false }
        init_default_capabilities ⟨0, 0⟩ procEnv0).g.ephemeral_username = "app-42"
    ∧ Act.runUseradd "app-42" ∈ (freebsd_create_isolation { hostAllOk with verifyOk := false }
        init_default_capabilities ⟨0, 0⟩ procEnv0).trace
    ∧ Act.runUserdel "app-42" ∉ (freebsd_create_isolation { hostAllOk with verifyOk := false }
        init_default_capabilities ⟨0, 0⟩ procEnv0).trace
    ∧ releasedAll (freebsd_create_isolation { hostAllOk with verifyOk := false }
        init_default_capabilities ⟨0, 0⟩ procEnv0).trace = false :=
  ⟨by decide, by decide, by decide, by decide, by decide⟩

/-- C1 (witness): a jail-creation failure on a host where the user
step succeeds rolls back completely. -/
theorem C1_rollback_after_user_step_witness :
    (freebsd_create_isolation { hostAllOk with jailOk := false }
        init_default_capabilities ⟨0, 0⟩ procEnv0).g = Globals.start
    ∧ releasedAll (freebsd_create_isolation { hostAllOk with jailOk := false }
        init_default_capabilities ⟨0, 0⟩ procEnv0).trace = true :=
  C1_rollback_after_user_step _ _ _ _ (fun _ => Or.inr ⟨rfl, rfl⟩) (by decide)

/-- C3 (counterexample): on a fully successful provisioning run the
release actions of rollback are not the reverse of the acquisition
order — the fixed unmount sequence differs from the reversed mount
sequence and unmounts never-mounted directories. -/
theorem C3_release_not_reverse_of_acquisition :
    (freebsd_create_isolation hostAllOk init_default_capabilities ⟨0, 0⟩ procEnv0).ret = 0
    ∧ (cleanup_jail (freebsd_create_isolation hostAllOk init_default_capabilities ⟨0, 0⟩
          procEnv0).g).2
        ≠ ((acquiredActs (freebsd_create_isolation hostAllOk init_default_capabilities ⟨0, 0⟩
              procEnv0).trace).reverse.map releaseOf) :=
  ⟨by decide, by decide⟩

/-- The identity pair switch_to_user resolves for a username: the
getpwnam entry, or the manual passwd parse when its first field equals
the username. -/
def resolved_ids (env : HostEnv) (username : String) : Option (Nat × Nat) :=
  match env.jailPw with
  | some pw => some (pw.uid, pw.gid)
  | none =>
    match env.passwdFallback with
    | some fb =>
      if fb.name = username then some ((atoi fb.uid_str).toNat, (atoi fb.gid_str).toNat)
      else none
    | none => none

/-- C4 (amended): switch_to_user sets the gid before the uid. On
success both credentials equal the resolved pair; on failure the uid
is never switched, but the gid may already have been switched to the
resolved gid — the switch is not atomic. -/
theorem C4_gid_first_split_possible (env : HostEnv) (u : String) (c0 : Cred) (e : EnvMap) :
    ((switch_to_user env u c0 e).1 = 0 →
      ∃ p, resolved_ids env u = some p
        ∧ (switch_to_user env u c0 e).2.1 = { uid := p.1, gid := p.2 })
    ∧ ((switch_to_user env u c0 e).1 ≠ 0 →
        (switch_to_user env u c0 e).2.1.uid = c0.uid
        ∧ ((switch_to_user env u c0 e).2.1.gid = c0.gid
            ∨ ∃ p, resolved_ids env u = some p
                ∧ (switch_to_user env u c0 e).2.1.gid = p.2)) := by
  unfold switch_to_user resolved_ids
  cases hpw : env.jailPw with
  | some pw =>
    by_cases h1 : env.setgidOk <;> by_cases h2 : env.initgroupsOk <;>
      by_cases h3 : env.setuidOk <;> simp_all
  | none =>
    cases hfb : env.passwdFallback with
    | some fb =>
      by_cases hn : fb.name = u <;> by_cases h1 : env.setgidOk <;>
        by_cases h3 : env.setuidOk <;> simp_all
    | none => simp_all

/-- C4 (witness): on a host where every credential call succeeds, the
switch ends with the resolved pair. -/
theorem C4_gid_first_split_possible_witness :
    ∃ p, resolved_ids hostAllOk "app-42" = some p
      ∧ (switch_to_user hostAllOk "app-42" ⟨0, 0⟩ []).2.1 = { uid := p.1, gid := p.2 } :=
  (C4_gid_first_split_possible hostAllOk "app-42" ⟨0, 0⟩ []).1 (by decide)

/-- C4 (counterexample): when setuid fails after a successful setgid,
switch_to_user returns an error with only the gid switched — the split
state the claim rules out. -/
theorem C4_returns_with_only_gid_switched :
    (switch_to_user { hostAllOk with setuidOk := false } "app-42" ⟨0, 0⟩ []).1 ≠ 0
    ∧ (switch_to_user { hostAllOk with setuidOk := false } "app-42" ⟨0, 0⟩ []).2.1
        = { uid := 0, gid := 1001 } :=
  ⟨by decide, by decide⟩

/-- Insert a default binding only when the name is not already
bound. -/
def addDefaultEnv (m : EnvMap) (k v : String) : EnvMap :=
  match envGet m k with
  | some _ => m
  | none => envSet m k v

/-- Modelled from the spec words of C5: the union of the env_rules and
the minimal default triplet USER, HOME=/tmp and LIBRARY_SEARCH_PATH,
with a matching env rule overriding the corresponding default. -/
def spec_env_union (rules : List EnvVar) (principal libdefault : String) : EnvMap :=
  addDefaultEnv (addDefaultEnv (addDefaultEnv
    (rules.foldl (fun m r => envSet m r.name r.value) []) "USER" principal)
    "HOME" "/tmp") "LIBRARY_SEARCH_PATH" libdefault

/-- A policy requesting a cleared environment. -/
def capsEnvClear : Capabilities :=
  { init_default_capabilities with env_clear := true }

/-- C5 (counterexample): with env_clear set the payload environment
still contains the inherited PATH — it is not the union of env_rules
and the default triplet, and no LIBRARY_SEARCH_PATH default is set. -/
theorem C5_env_clear_has_no_effect :
    capsEnvClear.env_clear = true
    ∧ (freebsd_create_isolation hostAllOk capsEnvClear ⟨0, 0⟩ procEnv0).ret = 0
    ∧ envGet (freebsd_create_isolation hostAllOk capsEnvClear ⟨0, 0⟩ procEnv0).env "PATH"
        = some "/usr/bin"
    ∧ envGet (spec_env_union capsEnvClear.env_vars "app-42" "/lib:/usr/lib") "PATH" = none
    ∧ (freebsd_create_isolation hostAllOk capsEnvClear ⟨0, 0⟩ procEnv0).env
        ≠ spec_env_union capsEnvClear.env_vars "app-42" "/lib:/usr/lib"
    ∧ envGet (freebsd_create_isolation hostAllOk capsEnvClear ⟨0, 0⟩ procEnv0).env
        "LIBRARY_SEARCH_PATH" = none :=
  ⟨by decide, by decide, by decide, by decide, by decide, by decide⟩

/-- A policy declaring one readable directory file rule. -/
def capsDataRule : Capabilities :=
  { init_default_capabilities with files := [{ path := "/data", permissions := 4 }] }

/-- A host on which /data exists and is a directory. -/
def hostWithData : HostEnv :=
  { hostAllOk with hostDirs := ["/data"] }

/-- C6 (counterexample): a file rule whose host path exists as a
directory with read permission produces no bind mount — the mounted
sources are exactly the fixed skeleton. -/
theorem C6_file_rule_not_materialized :
    "/data" ∈ hostWithData.hostDirs
    ∧ capsDataRule.files = [{ path := "/data", permissions := 4 }]
    ∧ (freebsd_create_isolation hostWithData capsDataRule ⟨0, 0⟩ procEnv0).ret = 0
    ∧ ((freebsd_create_isolation hostWithData capsDataRule ⟨0, 0⟩ procEnv0).trace.filterMap
          mountSourceOf) = ["/lib", "/usr/lib", "/libexec", "devfs"] :=
  ⟨by decide, by decide, by decide, by decide⟩


/-- C3 (amended): after a successful provisioning run, rollback
releases the resource classes in reverse acquisition order — jail
first, then the filesystem (the six fixed unmounts followed by root
directory removal), then the ephemeral principal — but within the
mounts the unmount order is the fixed list dev, bin, lib, libexec,
usr/lib, usr/local/lib rather than the reverse of the mount order, and
includes directories that were never mounted. -/
theorem C3_release_classwise_reverse (env : HostEnv) (caps : Capabilities) (cred : Cred)
    (e : EnvMap)
    (hret : (freebsd_create_isolation env caps cred e).ret = 0) :
    (cleanup_jail (freebsd_create_isolation env caps cred e).g).2
      = Act.jailRemove (env.jid : Int)
        :: (umountActsOf (rootPathOf env)
            ++ (if caps.create_user && (caps.username == "auto")
                then [Act.runUserdel (appNameOf env)] else [])) := by
  rw [run_success_g env caps cred e hret]
  rw [cleanup_jail_acts _ (rootPathOf_ne_empty env)]
  by_cases hcu : (caps.create_user && (caps.username == "auto")) = true <;>
    simp [hcu, Int.natCast_nonneg, appNameOf_ne_empty env]

/-- C3 (witness): the rollback action list of a concrete successful
run. -/
theorem C3_release_classwise_reverse_witness :
    (cleanup_jail (freebsd_create_isolation hostAllOk init_default_capabilities ⟨0, 0⟩
        procEnv0).g).2
      = Act.jailRemove 7
        :: (umountActsOf (rootPathOf hostAllOk) ++ [Act.runUserdel (appNameOf hostAllOk)]) := by
  have h := C3_release_classwise_reverse hostAllOk init_default_capabilities ⟨0, 0⟩ procEnv0
    (by decide)
  rw [h]
  decide



/-- On success with a getpwnam entry, the final environment is the
inherited one with USER, HOME and SHELL overwritten from the passwd
entry. -/
theorem run_success_env (env : HostEnv) (caps : Capabilities) (cred : Cred) (e : EnvMap)
    (pw : PwEnt) (hpw : env.jailPw = some pw)
    (hret : (freebsd_create_isolation env caps cred e).ret = 0) :
    (freebsd_create_isolation env caps cred e).env
      = envSet (envSet (envSet e "USER" pw.name) "HOME" pw.dir) "SHELL" pw.shell := by
  unfold freebsd_create_isolation at hret ⊢
  revert hret
  cases henv : envGet e "ISOLATE_TARGET_BINARY" with
  | none =>
    intro hret
    dsimp only at hret
    exact absurd hret (by decide)
  | some tb =>
    intro hret
    dsimp only at hret ⊢
    by_cases hcu : (caps.create_user && (caps.username == "auto")) = true
    · rw [if_pos hcu] at hret ⊢
      by_cases hr : (create_ephemeral_user env (strTake ("app-" ++ toString env.pid) 63)).1 ≠ 0
      · rw [if_pos hr] at hret ⊢
        exact absurd hret hr
      · rw [if_neg hr] at hret ⊢
        exact (isolation_steps_success_env env caps cred e _ _ _ _ tb pw hpw hret).1
    · rw [if_neg hcu] at hret ⊢
      exact (isolation_steps_success_env env caps cred e _ _ _ _ tb pw hpw hret).1

/-- C5 (amended): env_clear and env_rules are parsed but never
applied. On every successful run the payload environment is the
inherited environment with USER, HOME and SHELL overwritten from the
passwd entry of the principal, and the whole run result is unchanged
under any modification of the env_clear and env_vars fields of the
policy. -/
theorem C5_env_ignores_policy (env : HostEnv) (caps : Capabilities) (cred : Cred)
    (e : EnvMap) (pw : PwEnt) (b : Bool) (rules : List EnvVar)
    (hpw : env.jailPw = some pw)
    (hret : (freebsd_create_isolation env caps cred e).ret = 0) :
    (freebsd_create_isolation env caps cred e).env
      = envSet (envSet (envSet e "USER" pw.name) "HOME" pw.dir) "SHELL" pw.shell
    ∧ freebsd_create_isolation env { caps with env_clear := b, env_vars := rules } cred e
      = freebsd_create_isolation env caps cred e := by
  refine ⟨run_success_env env caps cred e pw hpw hret, ?_⟩
  obtain ⟨u, cu, nw, nd, fs, fd, ev, ec, lim⟩ := caps
  rfl

/-- C5 (witness): the payload environment of a concrete successful
run with env_clear set. -/
theorem C5_env_ignores_policy_witness :
    (freebsd_create_isolation hostAllOk capsEnvClear ⟨0, 0⟩ procEnv0).env
      = envSet (envSet (envSet procEnv0 "USER" "app-42") "HOME" "/tmp") "SHELL"
          "/usr/sbin/nologin"
    ∧ freebsd_create_isolation hostAllOk
        { capsEnvClear with env_clear := false, env_vars := [] } ⟨0, 0⟩ procEnv0
      = freebsd_create_isolation hostAllOk capsEnvClear ⟨0, 0⟩ procEnv0 :=
  C5_env_ignores_policy hostAllOk capsEnvClear ⟨0, 0⟩ procEnv0
    { name := "app-42", uid := 1001, gid := 1001, dir := "/tmp", shell := "/usr/sbin/nologin" }
    false [] (by decide) (by decide)



/-- The mount sources of a trace. -/
def mountSources (t : List Act) : List String :=
  t.filterMap mountSourceOf

/-- The fixed skeleton sources of setup_filesystem_isolation. -/
def skeletonSources : List String :=
  ["/lib", "/usr/lib", "/libexec", "devfs"]

theorem mountSources_append (s t : List Act) :
    mountSources (s ++ t) = mountSources s ++ mountSources t := by
  simp [mountSources]

theorem mountSources_cleanup (g : Globals) : mountSources (cleanup_jail g).2 = [] := by
  by_cases h1 : 0 ≤ g.created_jail_id <;> by_cases h2 : g.jail_root_path = "" <;>
    by_cases h3 : g.ephemeral_username = "" <;>
      simp [cleanup_jail, mountSources, mountSourceOf, h1, h2, h3]

theorem mountSources_user (env : HostEnv) (u : String) :
    mountSources (create_ephemeral_user env u).2 = [] := by
  unfold create_ephemeral_user
  split_ifs <;> simp [mountSources, mountSourceOf]

theorem mountSources_createfs (env : HostEnv) (jn : String) :
    mountSources (create_jail_filesystem env jn).2.2 = [] := by
  unfold create_jail_filesystem
  split_ifs <;> simp [mountSources, mountSourceOf]

theorem mountSources_create_jail (env : HostEnv) (jn p : String) :
    mountSources (create_jail env jn p).2 = [] := by
  unfold create_jail
  split_ifs <;> simp [mountSources, mountSourceOf]

theorem mountSources_limits (env : HostEnv) (jn : String) (lim : ResourceLimits) :
    mountSources (setup_resource_limits env jn lim).2 = [] := by
  unfold setup_resource_limits
  dsimp only
  split_ifs <;> simp [mountSources, mountSourceOf]

theorem mountSources_attach (env : HostEnv) (jid : Int) :
    mountSources (attach_to_jail env jid).2 = [] := by
  unfold attach_to_jail
  split_ifs <;> simp [mountSources, mountSourceOf]

theorem mountSources_switch (env : HostEnv) (u : String) (c0 : Cred) (e : EnvMap) :
    mountSources (switch_to_user env u c0 e).2.2.2 = [] := by
  unfold switch_to_user
  cases env.jailPw with
  | some pw => split_ifs <;> simp [mountSources, mountSourceOf]
  | none =>
    cases env.passwdFallback with
    | some fb =>
      by_cases hn : fb.name = u <;> split_ifs <;> simp [hn, mountSources, mountSourceOf]
    | none => simp [mountSources, mountSourceOf]

theorem mountSources_setupfs (env : HostEnv) (rules : List FileRule) (root tb : String) :
    ∀ s ∈ mountSources (setup_filesystem_isolation env rules root tb).2,
      s ∈ skeletonSources := by
  unfold setup_filesystem_isolation
  dsimp only
  by_cases h0 : env.copyBinaryOk <;> by_cases h1 : env.mountLibOk <;>
    by_cases h2 : env.mountUsrLibOk <;> by_cases h3 : env.mountLibexecOk <;>
      by_cases h4 : env.mountDevOk <;>
        simp [h0, h1, h2, h3, h4, mountSources, mountSourceOf, skeletonSources]

theorem mountSources_network (rules : List NetworkRule) :
    mountSources (setup_network_isolation rules).2 = [] := rfl

theorem isolation_steps_mounts (env : HostEnv) (caps : Capabilities) (cred : Cred)
    (e : EnvMap) (g1 : Globals) (t0 : List Act) (jn un tb : String)
    (ht0 : mountSources t0 = []) :
    ∀ s ∈ mountSources (isolation_steps env caps cred e g1 t0 jn un tb).trace,
      s ∈ skeletonSources := by
  unfold isolation_steps
  dsimp only
  split_ifs <;>
    (intro s hs
     simp only [mountSources_append, ht0, mountSources_createfs, mountSources_cleanup,
       mountSources_create_jail, mountSources_limits, mountSources_attach,
       mountSources_switch, mountSources_network, List.nil_append, List.append_nil,
       List.mem_append, List.not_mem_nil, false_or, or_false] at hs
     all_goals first
       | cases hs
       | exact mountSources_setupfs env caps.files _ tb s hs)



/-- C6 (amended): for every invocation, the sources ever mounted are
within the fixed skeleton (read-only /lib, /usr/lib, /libexec plus
devfs) — file rules contribute no mounts and no warnings, and
setup_filesystem_isolation is independent of the rules it receives. -/
theorem C6_only_skeleton_exposed (env : HostEnv) (caps : Capabilities) (cred : Cred)
    (e : EnvMap) :
    (∀ s ∈ mountSources (freebsd_create_isolation env caps cred e).trace,
        s ∈ skeletonSources)
    ∧ (∀ rules rules2 : List FileRule, ∀ p tb : String,
        setup_filesystem_isolation env rules p tb
          = setup_filesystem_isolation env rules2 p tb) := by
  constructor
  · unfold freebsd_create_isolation
    cases henv : envGet e "ISOLATE_TARGET_BINARY" with
    | none =>
      intro s hs
      dsimp only at hs
      simp [mountSources] at hs
    | some tb =>
      dsimp only
      by_cases hcu : (caps.create_user && (caps.username == "auto")) = true
      · rw [if_pos hcu]
        by_cases hr : (create_ephemeral_user env (strTake ("app-" ++ toString env.pid) 63)).1 ≠ 0
        · rw [if_pos hr]
          intro s hs
          dsimp only at hs
          rw [mountSources_user] at hs
          cases hs
        · rw [if_neg hr]
          exact isolation_steps_mounts env caps cred e _ _ _ _ tb (mountSources_user env _)
      · rw [if_neg hcu]
        exact isolation_steps_mounts env caps cred e _ _ _ _ tb rfl
  · intro rules rules2 p tb
    rfl


end Isolate
